import Mathlib

/-!
# Visual-Encoding exercise page (`script.js`)

A shallow embedding of the page script: the countdown timer, the bounded
two-round exercise, the fullscreen repeat cycle, the duration settings and the
theme toggle, followed by the properties established about them.

Numbers.  Every number the script handles is either the result of `parseInt`
or obtained from one by `--`, so it is a double whose value is an integer, or
`NaN`, or an infinity.  `JSNum.int n` stands for the double of value `n`; the
operations round to the nearest double (ties to even) as the script's do, so
that above `2^53` a decrement can be lost and printing no longer gives the
plain decimal digits.  `-0` is identified with `0` (they print alike and
count down alike).  The counter `round` is a natural number, starting at 0,
and its increment rounds in the same way.
-/

namespace VisualEncoding

/-! ## JavaScript numbers, `String(n)` and `parseInt` -/

/-- A JavaScript number as it occurs in the script: a double of integer value,
`NaN`, `Infinity` or `-Infinity`. -/
inductive JSNum where
  | int (n : Int)
  | nan
  | posInf
  | negInf
deriving DecidableEq

/-- The bound `2^53` up to which every integer is a double. -/
def exactBound : Nat := 9007199254740992

/-- The bound `2^1024` from which rounding to a double gives an infinity. -/
def overflowBound : Nat := 2 ^ 256 * 2 ^ 256 * 2 ^ 256 * 2 ^ 256

/-- Number of binary digits of `n`, by recursion on `fuel` (`fuel = n` is
enough). -/
def bitLength : Nat → Nat → Nat
  | 0, _ => 0
  | fuel + 1, n => if n = 0 then 0 else bitLength fuel (n / 2) + 1

/-- Rounding of a natural number to the nearest integer that has at most 53
significant binary digits, ties going to the even significand (the rounding of
IEEE 754 doubles, overflow apart). -/
def roundNat (m : Nat) : Nat :=
  if m ≤ exactBound then m
  else
    let e := bitLength m m - 53
    let q := m / 2 ^ e
    let r := m % 2 ^ e
    if 2 ^ e < 2 * r ∨ (2 * r = 2 ^ e ∧ q % 2 = 1) then (q + 1) * 2 ^ e else q * 2 ^ e

/-- The postfix increment `x++` of a counter (new value of `x`): the double
nearest to `x + 1`. -/
def incr (n : Nat) : Nat := roundNat (n + 1)

/-- The double nearest to an integer. -/
def toDouble (z : Int) : JSNum :=
  if overflowBound ≤ roundNat z.natAbs then
    (if z < 0 then JSNum.negInf else JSNum.posInf)
  else if z < 0 then JSNum.int (-(roundNat z.natAbs : Int))
  else JSNum.int (roundNat z.natAbs : Int)

/-- The decimal numeral with the fewest significant digits that rounds to the
double `x`, the one nearest to `x` if there are several (the digits chosen by
`Number::toString`): multiples of `10^j` are tried for `j` from `fuel` down. -/
def shortestDecimal (x : Nat) : Nat → Nat
  | 0 => x
  | j + 1 =>
    let p := 10 ^ (j + 1)
    let lo := x / p * p
    let hi := lo + p
    if roundNat lo = x ∧ roundNat hi = x then
      (if x - lo < hi - x then lo
       else if hi - x < x - lo then hi
       else if (x / p) % 2 = 0 then lo else hi)
    else if roundNat lo = x then lo
    else if roundNat hi = x then hi
    else shortestDecimal x j

/-- A digit string without its trailing zeros. -/
def dropTrailingZeros (cs : List Char) : List Char :=
  (cs.reverse.dropWhile (fun c => c = '0')).reverse

/-- The characters of `String(x)` for a double `x > 2^53` of integer value:
the shortest digits padded with zeros below `10^21`, exponent form from
there on. -/
def largeToChars (x : Nat) : List Char :=
  let c := shortestDecimal x (Nat.toDigits 10 x).length
  let ds := Nat.toDigits 10 c
  if ds.length ≤ 21 then ds
  else
    match dropTrailingZeros ds with
    | [] => ds
    | [d] => d :: 'e' :: '+' :: Nat.toDigits 10 (ds.length - 1)
    | d :: rest => d :: '.' :: (rest ++ 'e' :: '+' :: Nat.toDigits 10 (ds.length - 1))

/-- The characters of `String(x)` for a double `x ≥ 0` of integer value; up to
`2^53` these are the decimal digits of `x`. -/
def natToChars (m : Nat) : List Char :=
  if m ≤ exactBound then Nat.toDigits 10 m else largeToChars m

namespace JSNum

/-- The postfix decrement `x--` (new value of `x`): the double nearest to
`x - 1`; `NaN` and the infinities are left as they are. -/
def dec : JSNum → JSNum
  | int n => toDouble (n - 1)
  | nan => nan
  | posInf => posInf
  | negInf => negInf

/-- The comparison `x <= 0`; every comparison with `NaN` is false. -/
def leZero : JSNum → Bool
  | int n => decide (n ≤ 0)
  | nan => false
  | posInf => false
  | negInf => true

/-- The characters of `String(x)`. -/
def toChars : JSNum → List Char
  | int (Int.ofNat n) => natToChars n
  | int (Int.negSucc n) => '-' :: natToChars (n + 1)
  | nan => ['N', 'a', 'N']
  | posInf => ['I', 'n', 'f', 'i', 'n', 'i', 't', 'y']
  | negInf => ['-', 'I', 'n', 'f', 'i', 'n', 'i', 't', 'y']

/-- The string `String(x)`, as produced by a template literal, by assigning to
`textContent` and by `localStorage.setItem`. -/
def toJSString (x : JSNum) : String := String.mk x.toChars

/-- Holds when the number is an integer greater than zero. -/
def IsPositiveInt : JSNum → Prop
  | int n => 0 < n
  | _ => False

instance (x : JSNum) : Decidable x.IsPositiveInt := by
  cases x <;> unfold IsPositiveInt <;> infer_instance

/-- Holds for `NaN` and for the integers of magnitude at most `2^53`, on which
decrementing, printing and parsing are exact. -/
def IsExact : JSNum → Prop
  | int n => n.natAbs ≤ exactBound
  | nan => True
  | _ => False

instance (x : JSNum) : Decidable x.IsExact := by
  cases x <;> unfold IsExact <;> infer_instance

end JSNum

/-- Code points that `parseInt` skips at the start of its argument
(ECMAScript `WhiteSpace` and `LineTerminator`). -/
def whiteSpaceCodes : List Nat :=
  [0x09, 0x0A, 0x0B, 0x0C, 0x0D, 0x20, 0xA0, 0x1680, 0x2000, 0x2001, 0x2002,
   0x2003, 0x2004, 0x2005, 0x2006, 0x2007, 0x2008, 0x2009, 0x200A, 0x2028,
   0x2029, 0x202F, 0x205F, 0x3000, 0xFEFF]

/-- Test for a character that `parseInt` skips at the start. -/
def isWhiteSpace (c : Char) : Bool := whiteSpaceCodes.contains c.toNat

/-- Value of a character as a digit (`0-9`, `a-z`, `A-Z`), if it is one. -/
def digitValue (c : Char) : Option Nat :=
  let k := c.toNat
  if 48 ≤ k ∧ k ≤ 57 then some (k - 48)
  else if 97 ≤ k ∧ k ≤ 122 then some (k - 97 + 10)
  else if 65 ≤ k ∧ k ≤ 90 then some (k - 65 + 10)
  else none

/-- Value of a character as a digit of the given radix, if it is one. -/
def radixDigit (radix : Nat) (c : Char) : Option Nat :=
  match digitValue c with
  | some v => if v < radix then some v else none
  | none => none

/-- Reads the longest prefix of radix digits, most significant first, starting
from the accumulated value `acc`; `seen` tells whether a digit was read. -/
def readDigits (radix : Nat) : List Char → Nat → Bool → Option Nat
  | [], acc, seen => if seen then some acc else none
  | c :: cs, acc, seen =>
    match radixDigit radix c with
    | some v => readDigits radix cs (acc * radix + v) true
    | none => if seen then some acc else none

/-- The part of `parseInt` after the sign: an optional `0x` / `0X` prefix
selects radix 16, otherwise radix 10; the result is the integer the digits
denote. -/
def parseMagnitude : List Char → Option Nat
  | '0' :: 'x' :: cs => readDigits 16 cs 0 false
  | '0' :: 'X' :: cs => readDigits 16 cs 0 false
  | cs => readDigits 10 cs 0 false

/-- The part of `parseInt` after leading white space: an optional sign, then
the magnitude; the result is the double nearest to the signed integer, and
`NaN` when no digit follows.  (Beyond 20 significant decimal digits ECMAScript
lets an engine read the later digits as zeros; the value of all digits is
taken here.) -/
def parseSigned : List Char → JSNum
  | '-' :: cs =>
    match parseMagnitude cs with
    | some m => toDouble (-(m : Int))
    | none => JSNum.nan
  | '+' :: cs =>
    match parseMagnitude cs with
    | some m => toDouble m
    | none => JSNum.nan
  | cs =>
    match parseMagnitude cs with
    | some m => toDouble m
    | none => JSNum.nan

/-- The built-in `parseInt(string)` with no radix argument. -/
def parseInt (s : String) : JSNum :=
  parseSigned (s.data.dropWhile isWhiteSpace)

/-! ## `localStorage` -/

/-- The three `localStorage` entries the script reads and writes; `none` is an
absent key (`getItem` returns `null`). -/
structure Storage where
  theme : Option String
  viewTime : Option String
  rebuildTime : Option String
deriving DecidableEq

/-- A `localStorage` with none of the three entries. -/
def Storage.empty : Storage := ⟨none, none, none⟩

/-- Truthiness of the result of `getItem`: `null` and the empty string are
falsy, every other string is truthy. -/
def truthy : Option String → Bool
  | none => false
  | some s => s != ""

/-! ## Page state -/

/-- The phase tags passed to `startCountdown` and stored in `currentPhase`
(the strings `view` and `rebuild`). -/
inductive Phase where
  | view
  | rebuild
deriving DecidableEq

/-- The four function expressions that the script passes to `startCountdown`
as `callback`: the view-expiry and rebuild-expiry handlers of `startExercise`
and those of `startInfiniteRepeat`. -/
inductive Callback where
  | exerciseViewDone
  | exerciseRebuildDone
  | repeatViewDone
  | repeatRebuildDone
deriving DecidableEq

/-- A live interval created by `setInterval` in `startCountdown`: the id that
`setInterval` returned and the variables its closure captured. -/
structure Interval where
  id : Nat
  timeLeft : JSNum
  callback : Callback
deriving DecidableEq

/-- Observable actions recorded in the history of a run: a call of
`updateTimerDisplay` (with the value of `timeLeft` it rendered) and a call of
`callback()` by an interval. -/
inductive Effect where
  | rendered (timeLeft : JSNum)
  | expired (callback : Callback)
deriving DecidableEq

/-- The state of the page: the script globals, `localStorage`, the live
intervals of the browser, the parts of the document the modelled functions
write, and the history of observable actions.

Not modelled: the fullscreen functions (vendor-prefixed browser calls; the
flag `isFullscreenMode` they maintain is kept since the timer display reads
it), the source URL and load handlers of the image, the slider positions and
the `active` marking of the preset buttons. -/
structure State where
  /-- Global `round`. -/
  round : Nat
  /-- Global `countdown`: the id of the last interval created, or `null`. -/
  countdown : Option Nat
  /-- Global `viewTime`. -/
  viewTime : JSNum
  /-- Global `rebuildTime`. -/
  rebuildTime : JSNum
  /-- Global `isFullscreenMode`. -/
  isFullscreenMode : Bool
  /-- Global `currentPhase`; `none` is `null`. -/
  currentPhase : Option Phase
  /-- Contents of `localStorage`. -/
  storage : Storage
  /-- Intervals that are live in the browser, oldest first. -/
  timers : List Interval
  /-- The id the next `setInterval` call returns; ids are never reused. -/
  nextTimerId : Nat
  /-- Whether `body.classList` contains `dark-mode`. -/
  bodyDarkMode : Bool
  /-- Whether `body.classList` contains `light-mode`. -/
  bodyLightMode : Bool
  /-- Whether `sunIcon.classList` contains `hidden`. -/
  sunHidden : Bool
  /-- Whether `moonIcon.classList` contains `hidden`. -/
  moonHidden : Bool
  /-- Value of `image.style.display`. -/
  imageDisplay : String
  /-- Whether `image.classList` contains `loaded`. -/
  imageLoaded : Bool
  /-- Value of `instructions.innerHTML`. -/
  instructions : String
  /-- Value of `timerEl.textContent`. -/
  timerText : String
  /-- Value of `fullscreenTimer.textContent`. -/
  fullscreenTimerText : String
  /-- Whether `fullscreenTimer.classList` contains `hidden`. -/
  fullscreenTimerHidden : Bool
  /-- Value of `startBtn.textContent`. -/
  startBtnText : String
  /-- Value of `nextBtn.disabled`. -/
  nextBtnDisabled : Bool
  /-- Value of `repeatBtn.disabled`. -/
  repeatBtnDisabled : Bool
  /-- Whether `repeatBtn.classList` contains `hidden`. -/
  repeatBtnHidden : Bool
  /-- Value of `repeatBtn.innerHTML`. -/
  repeatBtnHtml : String
  /-- Value of `viewTimeValue.textContent`. -/
  viewTimeValueText : String
  /-- Value of `rebuildTimeValue.textContent`. -/
  rebuildTimeValueText : String
  /-- History of observable actions, oldest first. -/
  trace : List Effect
deriving DecidableEq

/-! ## Theme -/

/-- The function `toggleTheme`. -/
def toggleTheme (s : State) : State :=
  let isDarkMode := s.bodyDarkMode
  if isDarkMode then
    { s with
      bodyDarkMode := false
      bodyLightMode := true
      sunHidden := false
      moonHidden := true
      storage := { s.storage with theme := some "light" } }
  else
    { s with
      bodyLightMode := false
      bodyDarkMode := true
      sunHidden := true
      moonHidden := false
      storage := { s.storage with theme := some "dark" } }

/-- The function `initTheme`; `getItem('theme') || 'light'` replaces an absent
or empty entry by `light`. -/
def initTheme (s : State) : State :=
  let savedTheme := if truthy s.storage.theme then s.storage.theme.getD "" else "light"
  if savedTheme = "dark" then
    { s with
      bodyDarkMode := true
      bodyLightMode := false
      sunHidden := true
      moonHidden := false }
  else
    { s with
      bodyLightMode := true
      bodyDarkMode := false
      sunHidden := false
      moonHidden := true }

/-! ## Timer -/

/-- The closure `updateTimerDisplay` of `startCountdown`, given the current
value of its captured variable `timeLeft`. -/
def updateTimerDisplay (timeLeft : JSNum) (s : State) : State :=
  let text := "Time left: " ++ timeLeft.toJSString ++ "s"
  let s1 := { s with timerText := text, trace := s.trace ++ [Effect.rendered timeLeft] }
  if s1.isFullscreenMode then
    { s1 with fullscreenTimerText := text, fullscreenTimerHidden := false }
  else s1

/-- The browser call `clearInterval(id)`: the interval with that id, if live,
is removed; `null` and ids of no live interval are ignored. -/
def clearInterval (id : Option Nat) (s : State) : State :=
  match id with
  | none => s
  | some i => { s with timers := s.timers.filter (fun t => t.id != i) }

/-- The function `startCountdown(seconds, phase, callback)`. -/
def startCountdown (seconds : JSNum) (phase : Phase) (callback : Callback)
    (s : State) : State :=
  let s1 := clearInterval s.countdown s
  let s2 := { s1 with currentPhase := some phase }
  let s3 := updateTimerDisplay seconds s2
  { s3 with
    countdown := some s3.nextTimerId
    timers := s3.timers ++ [⟨s3.nextTimerId, seconds, callback⟩]
    nextTimerId := s3.nextTimerId + 1 }

/-- The function `loadRandomImage`, as far as the document state goes. -/
def loadRandomImage (s : State) : State :=
  { s with imageLoaded := false, imageDisplay := "block" }

/-- The rebuild instructions (the template literal of both sequencers). -/
def rebuildInstructions : String :=
  "\n      Close your eyes and rebuild it mentally:<br><br>\n      • Overall shape<br>\n      • Colors<br>\n      • Object positions\n    "

/-- The review instructions. -/
def reviewInstructions : String := "Open your eyes. Notice what you missed."

/-- The text appended to the instructions after the last round. -/
def completeSuffix : String := "<br><br><strong>Exercise complete.</strong>"

/-- The viewing instructions for the current `viewTime`. -/
def lookInstructions (viewTime : JSNum) : String :=
  "Look at the image for <strong>" ++ viewTime.toJSString ++ " seconds</strong>."

/-- The bodies of the four callbacks. -/
def runCallback (cb : Callback) (s : State) : State :=
  match cb with
  | Callback.exerciseViewDone =>
    let s1 := { s with imageDisplay := "none", instructions := rebuildInstructions }
    startCountdown s1.rebuildTime Phase.rebuild Callback.exerciseRebuildDone s1
  | Callback.exerciseRebuildDone =>
    let s1 := { s with
      instructions := reviewInstructions
      imageDisplay := "block"
      timerText := ""
      fullscreenTimerHidden := true }
    if s1.round < 2 then
      { s1 with nextBtnDisabled := false }
    else
      { s1 with
        instructions := s1.instructions ++ completeSuffix
        startBtnText := "Restart" }
  | Callback.repeatViewDone =>
    let s1 := { s with imageDisplay := "none", instructions := rebuildInstructions }
    startCountdown s1.rebuildTime Phase.rebuild Callback.repeatRebuildDone s1
  | Callback.repeatRebuildDone =>
    { s with
      imageDisplay := "block"
      instructions := reviewInstructions
      fullscreenTimerHidden := true
      repeatBtnDisabled := false }

/-- One firing of the interval function created by `startCountdown`, for the
live interval `t`: decrement and render `timeLeft`, and on expiry clear the
interval held in the global `countdown`, hide the fullscreen timer, reset
`currentPhase` and call the callback. -/
def intervalBody (t : Interval) (s : State) : State :=
  let timeLeft := t.timeLeft.dec
  let s1 := { s with
    timers := s.timers.map (fun u => if u.id = t.id then { u with timeLeft := timeLeft } else u) }
  let s2 := updateTimerDisplay timeLeft s1
  if timeLeft.leZero then
    let s3 := clearInterval s2.countdown s2
    let s4 := { s3 with fullscreenTimerHidden := true, currentPhase := none }
    runCallback t.callback { s4 with trace := s4.trace ++ [Effect.expired t.callback] }
  else s2

/-- The browser fires the interval with the given id, if it is live. -/
def fireInterval (id : Nat) (s : State) : State :=
  match s.timers.find? (fun t => t.id = id) with
  | none => s
  | some t => intervalBody t s

/-- One second elapses: every interval that is live at that moment fires once,
oldest first (an interval cleared meanwhile does not fire). -/
def tick (s : State) : State :=
  (s.timers.map (fun t => t.id)).foldl (fun acc id => fireInterval id acc) s

/-- The state after `n` seconds with no other trigger. -/
def ticks : Nat → State → State
  | 0, s => s
  | n + 1, s => ticks n (tick s)

/-! ## Exercise and repeat sequencers -/

/-- The function `startExercise`. -/
def startExercise (s : State) : State :=
  let s1 := { s with round := incr s.round, nextBtnDisabled := true }
  let s2 := loadRandomImage s1
  let s3 := { s2 with instructions := lookInstructions s2.viewTime }
  startCountdown s3.viewTime Phase.view Callback.exerciseViewDone s3

/-- The function `startInfiniteRepeat`. -/
def startInfiniteRepeat (s : State) : State :=
  let s1 := { s with repeatBtnDisabled := true }
  let s2 := loadRandomImage s1
  let s3 := { s2 with imageDisplay := "block" }
  let s4 := { s3 with instructions := lookInstructions s3.viewTime }
  startCountdown s4.viewTime Phase.view Callback.repeatViewDone s4

/-- The click handler of `startBtn`. -/
def startBtnClick (s : State) : State :=
  startExercise { s with round := 0, startBtnText := "Start", nextBtnDisabled := false }

/-! ## Settings -/

/-- The function `updateTimes(newViewTime, newRebuildTime)`. -/
def updateTimes (newViewTime newRebuildTime : JSNum) (s : State) : State :=
  let s1 := { s with viewTime := newViewTime, rebuildTime := newRebuildTime }
  let s2 := { s1 with
    viewTimeValueText := s1.viewTime.toJSString
    rebuildTimeValueText := s1.rebuildTime.toJSString }
  { s2 with
    storage := { s2.storage with
      viewTime := some s2.viewTime.toJSString
      rebuildTime := some s2.rebuildTime.toJSString } }

/-- The function `initSettings`. -/
def initSettings (s : State) : State :=
  let savedViewTime := s.storage.viewTime
  let savedRebuildTime := s.storage.rebuildTime
  let s1 := if truthy savedViewTime then
      { s with viewTime := parseInt (savedViewTime.getD "") } else s
  let s2 := if truthy savedRebuildTime then
      { s1 with rebuildTime := parseInt (savedRebuildTime.getD "") } else s1
  updateTimes s2.viewTime s2.rebuildTime s2

/-- The click handler of a preset button whose `data-view` and `data-rebuild`
attributes hold the given strings. -/
def presetClick (dataView dataRebuild : String) (s : State) : State :=
  let newViewTime := parseInt dataView
  let newRebuildTime := parseInt dataRebuild
  updateTimes newViewTime newRebuildTime s

/-! ## Page load and triggers -/

/-- The handler of `DOMContentLoaded`. -/
def domContentLoaded (s : State) : State :=
  let s1 := initTheme s
  let s2 := initSettings s1
  { s2 with
    instructions := "Click <strong>Start</strong> to begin the exercise."
    repeatBtnHidden := true
    fullscreenTimerHidden := true
    repeatBtnHtml := "<i class=\"fas fa-redo\"></i> Repeat" }

/-- The state once the top-level declarations of the script have run: the
globals have their initial values, no interval is live and nothing has been
observed; `document` supplies the document as parsed from the HTML and
`storage` the persisted entries. -/
def scriptStart (document : State) (storage : Storage) : State :=
  { document with
    round := 0
    countdown := none
    viewTime := JSNum.int 30
    rebuildTime := JSNum.int 20
    isFullscreenMode := false
    currentPhase := none
    storage := storage
    timers := []
    trace := [] }

/-- A page load: the script starts and `DOMContentLoaded` is handled. -/
def pageLoad (document : State) (storage : Storage) : State :=
  domContentLoaded (scriptStart document storage)

/-- A reload of the page: the document and the globals start afresh, the
`localStorage` is kept. -/
def reload (document : State) (s : State) : State :=
  pageLoad document s.storage

/-- The triggers of the sequencers: clicks on the three buttons and the firing
of the interval with a given id. -/
inductive Event where
  | startClick
  | nextClick
  | repeatClick
  | tick (id : Nat)
deriving DecidableEq

/-- The effect of a trigger; a click on a disabled button dispatches no
event. -/
def step (s : State) : Event → State
  | Event.startClick => startBtnClick s
  | Event.nextClick => if s.nextBtnDisabled then s else startExercise s
  | Event.repeatClick => if s.repeatBtnDisabled then s else startInfiniteRepeat s
  | Event.tick id => fireInterval id s

/-- The state after a sequence of triggers. -/
def run (s : State) (evs : List Event) : State := evs.foldl step s

/-- A document in which no class is set, all texts are empty and no button is
disabled. -/
def blankDocument : State :=
  { round := 0, countdown := none, viewTime := JSNum.int 30, rebuildTime := JSNum.int 20
    isFullscreenMode := false, currentPhase := none, storage := Storage.empty
    timers := [], nextTimerId := 1
    bodyDarkMode := false, bodyLightMode := false, sunHidden := false, moonHidden := false
    imageDisplay := "", imageLoaded := false, instructions := "", timerText := ""
    fullscreenTimerText := "", fullscreenTimerHidden := false, startBtnText := "Start"
    nextBtnDisabled := false, repeatBtnDisabled := false, repeatBtnHidden := false
    repeatBtnHtml := "", viewTimeValueText := "", rebuildTimeValueText := "", trace := [] }

/-! ## Observations used in the statements -/

/-- Decimal digit characters. -/
def IsDecChar (c : Char) : Prop := 48 ≤ c.toNat ∧ c.toNat ≤ 57

instance (c : Char) : Decidable (IsDecChar c) := by
  unfold IsDecChar; infer_instance

/-- The two themes. -/
inductive Theme where
  | light
  | dark
deriving DecidableEq

/-- The string under which a theme is persisted. -/
def Theme.name : Theme → String
  | Theme.light => "light"
  | Theme.dark => "dark"

/-- The other theme. -/
def Theme.flip : Theme → Theme
  | Theme.light => Theme.dark
  | Theme.dark => Theme.light

/-- The theme that `initTheme` reads from the persisted entry: dark exactly
when the entry is the string `dark`. -/
def persistedTheme (st : Storage) : Theme :=
  if st.theme = some "dark" then Theme.dark else Theme.light

/-- The theme the document shows, when the mode classes of the body and the
visibility of the two icons agree on one. -/
def shownTheme (s : State) : Option Theme :=
  if s.bodyDarkMode ∧ ¬ s.bodyLightMode ∧ s.sunHidden ∧ ¬ s.moonHidden then some Theme.dark
  else if ¬ s.bodyDarkMode ∧ s.bodyLightMode ∧ ¬ s.sunHidden ∧ s.moonHidden then some Theme.light
  else none

/-- The text that `updateTimerDisplay` writes for a value of `timeLeft`. -/
def timerLabel (timeLeft : JSNum) : String := "Time left: " ++ timeLeft.toJSString ++ "s"

/-- The renderings of a countdown from `d` up to its `k`-th tick, the initial
one included: the values `d, d - 1, ..., d - k`. -/
def renderedValues (d : Nat) : Nat → List Effect
  | 0 => [Effect.rendered (JSNum.int (d : Int))]
  | k + 1 => renderedValues d k ++ [Effect.rendered (JSNum.int ((d : Int) - ((k + 1 : Nat) : Int)))]

/-- Closed form of the state `k` ticks into a countdown from `d` with callback
`cb`, where `pre` is the state in which `startCountdown` made its first
rendering. -/
def counting (pre : State) (cb : Callback) (d k : Nat) : State :=
  { pre with
    countdown := some pre.nextTimerId
    timers := [⟨pre.nextTimerId, JSNum.int ((d : Int) - (k : Int)), cb⟩]
    nextTimerId := pre.nextTimerId + 1
    timerText := timerLabel (JSNum.int ((d : Int) - (k : Int)))
    fullscreenTimerText :=
      if pre.isFullscreenMode then timerLabel (JSNum.int ((d : Int) - (k : Int)))
      else pre.fullscreenTimerText
    fullscreenTimerHidden := if pre.isFullscreenMode then false else pre.fullscreenTimerHidden
    trace := pre.trace ++ renderedValues d k }

/-- Closed form of the state in which the interval of a countdown from `d`
calls its callback `cb` on the `d`-th tick. -/
def expiring (pre : State) (cb : Callback) (d : Nat) : State :=
  { pre with
    countdown := some pre.nextTimerId
    timers := []
    nextTimerId := pre.nextTimerId + 1
    timerText := timerLabel (JSNum.int 0)
    fullscreenTimerText :=
      if pre.isFullscreenMode then timerLabel (JSNum.int 0) else pre.fullscreenTimerText
    fullscreenTimerHidden := true
    currentPhase := none
    trace := pre.trace ++ renderedValues d d ++ [Effect.expired cb] }

/-- The property of the live intervals that every reachable state has: there
is at most one, the global `countdown` holds its id, and all ids in use are
below the next id. -/
def TimerInv (s : State) : Prop :=
  s.timers.length ≤ 1 ∧ (∀ t ∈ s.timers, s.countdown = some t.id) ∧
    ∀ t ∈ s.timers, t.id < s.nextTimerId

/-- The callbacks that end a rebuild countdown; they start no countdown. -/
def Callback.isRebuild : Callback → Bool
  | Callback.exerciseRebuildDone => true
  | Callback.repeatRebuildDone => true
  | _ => false

/-- The state in which `startExercise` calls `startCountdown` makes its first
rendering, when no interval was live before. -/
def exerciseViewBase (s : State) : State :=
  { s with
    round := incr s.round
    nextBtnDisabled := true
    imageLoaded := false
    imageDisplay := "block"
    instructions := lookInstructions s.viewTime
    timers := []
    currentPhase := some Phase.view }

/-- The state in which a view-expiry callback, called in state `e`, makes the
first rendering of the rebuild countdown. -/
def rebuildBase (e : State) : State :=
  { e with
    imageDisplay := "none"
    instructions := rebuildInstructions
    timers := []
    currentPhase := some Phase.rebuild }

/-- The timer invariant together with a lower bound `b` on the ids of the live
intervals and on the ids still to be handed out. -/
def IdsFrom (b : Nat) (s : State) : Prop :=
  TimerInv s ∧ b ≤ s.nextTimerId ∧ ∀ u ∈ s.timers, b ≤ u.id

/-- The callbacks of the repeat sequencer. -/
def Callback.isRepeat : Callback → Bool
  | Callback.repeatViewDone => true
  | Callback.repeatRebuildDone => true
  | _ => false

/-- The repeat guard: either no countdown is live, the repeat button is
enabled and `currentPhase` is `null`, or a countdown is live, the repeat button
is disabled and `currentPhase` is set. -/
def RepeatGuard (s : State) : Prop :=
  (s.timers = [] ∧ s.repeatBtnDisabled = false ∧ s.currentPhase = none) ∨
  (s.timers ≠ [] ∧ s.repeatBtnDisabled = true ∧ s.currentPhase ≠ none)

/-- The state once the cycle begun by a click on the start button has run its
`d1 + d2` ticks. -/
def firstCycleDone (s : State) (d1 d2 : Nat) : State :=
  ticks (d1 + d2) (step s Event.startClick)

/-- The state once the cycle begun by a click on the next button after the
first cycle has run its `d1 + d2` ticks. -/
def secondCycleDone (s : State) (d1 d2 : Nat) : State :=
  ticks (d1 + d2) (step (firstCycleDone s d1 d2) Event.nextClick)

/-- A page with the stored durations of one second each, on the blank
document. -/
def quickPage : State := pageLoad blankDocument ⟨none, some "1", some "1"⟩

/-- The state in which `startInfiniteRepeat` calls `startCountdown` makes its
first rendering, when no interval was live before. -/
def repeatViewBase (s : State) : State :=
  { s with
    repeatBtnDisabled := true
    imageLoaded := false
    imageDisplay := "block"
    instructions := lookInstructions s.viewTime
    timers := []
    currentPhase := some Phase.view }

/-! ## Printing and parsing of integers -/

theorem digitChar_toNat (m : Nat) (h : m < 10) : (Nat.digitChar m).toNat = 48 + m := by
  interval_cases m <;> rfl

theorem radixDigit_of_toNat (c : Char) (m : Nat) (h : m < 10) (hc : c.toNat = 48 + m) :
    radixDigit 10 c = some m := by
  unfold radixDigit digitValue
  simp only [hc]
  have h1 : 48 ≤ 48 + m ∧ 48 + m ≤ 57 := by omega
  simp [h1, h]

theorem isWhiteSpace_of_isDecChar (c : Char) (h : IsDecChar c) : isWhiteSpace c = false := by
  unfold IsDecChar at h
  unfold isWhiteSpace
  generalize c.toNat = k at h
  obtain ⟨h1, h2⟩ := h
  interval_cases k <;> decide

theorem toDigitsCore_spec (fuel : Nat) : ∀ (n : Nat) (ds : List Char), n < fuel →
    ∃ L : List Char, Nat.toDigitsCore 10 fuel n ds = L ++ ds ∧ L ≠ [] ∧
      (∀ c ∈ L, IsDecChar c) ∧
      ∀ (acc : Nat) (seen : Bool) (rest : List Char),
        readDigits 10 (L ++ rest) acc seen = readDigits 10 rest (acc * 10 ^ L.length + n) true := by
  induction fuel with
  | zero => intro n ds h; omega
  | succ fuel ih =>
    intro n ds hn
    have hmod : n % 10 < 10 := Nat.mod_lt _ (by decide)
    have hd := digitChar_toNat (n % 10) hmod
    have hr := radixDigit_of_toNat _ _ hmod hd
    unfold Nat.toDigitsCore
    by_cases h0 : n / 10 = 0
    · refine ⟨[Nat.digitChar (n % 10)], by simp [h0], by simp, ?_, ?_⟩
      · intro c hc
        simp only [List.mem_singleton] at hc
        subst hc
        unfold IsDecChar
        omega
      · intro acc seen rest
        have hlt : n < 10 := by omega
        simp only [List.singleton_append, readDigits, hr, List.length_singleton, pow_one]
        rw [Nat.mod_eq_of_lt hlt]
        rfl
    · have hlt : n / 10 < fuel := by omega
      obtain ⟨L, hL, hne, hdec, hread⟩ := ih (n / 10) (Nat.digitChar (n % 10) :: ds) hlt
      refine ⟨L ++ [Nat.digitChar (n % 10)], by simp [h0, hL], by simp, ?_, ?_⟩
      · intro c hc
        rcases List.mem_append.mp hc with hc | hc
        · exact hdec c hc
        · simp only [List.mem_singleton] at hc
          subst hc
          unfold IsDecChar
          omega
      · intro acc seen rest
        rw [List.append_assoc, hread]
        simp only [List.singleton_append, readDigits, hr, List.length_append,
          List.length_singleton]
        congr 1
        rw [pow_succ]
        have := Nat.div_add_mod n 10
        nlinarith [this]

/-- The decimal digits of a natural number: a non-empty list of digit
characters that reads back as the number. -/
theorem toDigits_spec (n : Nat) :
    ∃ (c : Char) (cs : List Char), Nat.toDigits 10 n = c :: cs ∧
      (∀ x ∈ c :: cs, IsDecChar x) ∧ readDigits 10 (c :: cs) 0 false = some n := by
  obtain ⟨L, hL, hne, hdec, hread⟩ := toDigitsCore_spec (n + 1) n [] (Nat.lt_succ_self n)
  rw [List.append_nil] at hL
  cases L with
  | nil => exact absurd rfl hne
  | cons c cs =>
    refine ⟨c, cs, hL, hdec, ?_⟩
    have := hread 0 false []
    rw [List.append_nil] at this
    rw [this]
    simp [readDigits]

theorem parseMagnitude_toDigits (n : Nat) : parseMagnitude (Nat.toDigits 10 n) = some n := by
  obtain ⟨c, cs, h, hdec, hread⟩ := toDigits_spec n
  rw [h]
  unfold parseMagnitude
  split
  · rename_i cs2 heq
    have : IsDecChar 'x' := hdec 'x' (by rw [heq]; simp)
    exact absurd this (by decide)
  · rename_i cs2 heq
    have : IsDecChar 'X' := hdec 'X' (by rw [heq]; simp)
    exact absurd this (by decide)
  · exact hread

theorem exactBound_lt_overflowBound : exactBound < overflowBound := by
  unfold exactBound overflowBound
  norm_num

theorem roundNat_of_le (m : Nat) (h : m ≤ exactBound) : roundNat m = m := by
  unfold roundNat
  rw [if_pos h]

/-- Up to `2^53` in magnitude an integer is its own nearest double. -/
theorem toDouble_of_exact (z : Int) (h : z.natAbs ≤ exactBound) : toDouble z = JSNum.int z := by
  unfold toDouble
  rw [roundNat_of_le _ h]
  have hlt := exactBound_lt_overflowBound
  rw [if_neg (by omega)]
  split
  · congr 1; omega
  · congr 1; omega

/-- A double of integer value below `2^1024` is its own nearest double. -/
theorem toDouble_of_fixed (m : Nat) (h : roundNat m = m) (hlt : m < overflowBound) :
    toDouble (m : Int) = JSNum.int m ∧ toDouble (-(m : Int)) = JSNum.int (-(m : Int)) := by
  have hno : ¬ overflowBound ≤ m := by omega
  unfold toDouble
  simp only [Int.natAbs_ofNat, Int.natAbs_neg, h, if_neg hno]
  refine ⟨?_, ?_⟩
  · rw [if_neg (by omega)]
  · split
    · rfl
    · congr 1; omega

theorem parseSigned_toDigits (n : Nat) : parseSigned (Nat.toDigits 10 n) = toDouble n := by
  have hm := parseMagnitude_toDigits n
  obtain ⟨c, cs, h, hdec, -⟩ := toDigits_spec n
  rw [h] at hm ⊢
  unfold parseSigned
  split
  · rename_i cs2 heq
    have : IsDecChar '-' := hdec '-' (by rw [heq]; simp)
    exact absurd this (by decide)
  · rename_i cs2 heq
    have : IsDecChar '+' := hdec '+' (by rw [heq]; simp)
    exact absurd this (by decide)
  · rw [hm]

/-- Parsing the decimal digits of a natural number gives its nearest double,
and with a minus sign in front that of its negative. -/
theorem parseInt_digits (n : Nat) :
    parseInt (String.mk (Nat.toDigits 10 n)) = toDouble n ∧
    parseInt (String.mk ('-' :: Nat.toDigits 10 n)) = toDouble (-(n : Int)) := by
  unfold parseInt
  refine ⟨?_, ?_⟩
  · obtain ⟨c, cs, h, hdec, -⟩ := toDigits_spec n
    have hws : isWhiteSpace c = false := isWhiteSpace_of_isDecChar c (hdec c (by simp))
    have hdrop : List.dropWhile isWhiteSpace (Nat.toDigits 10 n) = Nat.toDigits 10 n := by
      rw [h]; simp [List.dropWhile, hws]
    rw [hdrop, parseSigned_toDigits]
  · have hws : isWhiteSpace '-' = false := by decide
    have hdrop : List.dropWhile isWhiteSpace ('-' :: Nat.toDigits 10 n)
        = '-' :: Nat.toDigits 10 n := by
      simp [List.dropWhile, hws]
    rw [hdrop]
    simp only [parseSigned, parseMagnitude_toDigits]

/-- The search for the shortest decimal only returns numerals that round to
the double it was given. -/
theorem roundNat_shortestDecimal (x : Nat) (hx : roundNat x = x) :
    ∀ j, roundNat (shortestDecimal x j) = x := by
  intro j
  induction j with
  | zero => exact hx
  | succ j ih =>
    unfold shortestDecimal
    simp only
    split
    · rename_i hboth
      split
      · exact hboth.1
      · split
        · exact hboth.2
        · split
          · exact hboth.1
          · exact hboth.2
    · split
      · assumption
      · split
        · assumption
        · exact ih

theorem roundNat_ten_pow_21 : roundNat (10 ^ 21) = 10 ^ 21 := by decide

/-- Below `10^21` the shortest decimal of a double stays below `10^21`. -/
theorem shortestDecimal_lt (x : Nat) (hlt : x < 10 ^ 21) :
    ∀ j, j ≤ 21 → shortestDecimal x j < 10 ^ 21 := by
  intro j
  induction j with
  | zero => intro _; exact hlt
  | succ j ih =>
    intro hj
    have hlo : x / 10 ^ (j + 1) * 10 ^ (j + 1) ≤ x := Nat.div_mul_le_self x _
    have hhi : roundNat (x / 10 ^ (j + 1) * 10 ^ (j + 1) + 10 ^ (j + 1)) = x →
        x / 10 ^ (j + 1) * 10 ^ (j + 1) + 10 ^ (j + 1) < 10 ^ 21 := by
      intro hr
      have hdvd : 10 ^ (j + 1) ∣ 10 ^ 21 := pow_dvd_pow 10 hj
      obtain ⟨c, hc⟩ := hdvd
      have hpos : 0 < 10 ^ (j + 1) := by positivity
      have hq : x / 10 ^ (j + 1) < c := by
        rw [Nat.div_lt_iff_lt_mul hpos, Nat.mul_comm, ← hc]
        exact hlt
      have hle : x / 10 ^ (j + 1) * 10 ^ (j + 1) + 10 ^ (j + 1) ≤ 10 ^ 21 := by
        rw [hc]
        calc x / 10 ^ (j + 1) * 10 ^ (j + 1) + 10 ^ (j + 1)
            = (x / 10 ^ (j + 1) + 1) * 10 ^ (j + 1) := by ring
          _ ≤ c * 10 ^ (j + 1) := Nat.mul_le_mul_right _ hq
          _ = 10 ^ (j + 1) * c := Nat.mul_comm _ _
      rcases Nat.lt_or_eq_of_le hle with h | h
      · exact h
      · rw [h, roundNat_ten_pow_21] at hr
        omega
    unfold shortestDecimal
    simp only
    split
    · rename_i hboth
      split
      · omega
      · split
        · exact hhi hboth.2
        · split
          · omega
          · exact hhi hboth.2
    · split
      · omega
      · split
        · rename_i h3
          exact hhi h3
        · exact ih (by omega)

theorem toDigits_length_le (n : Nat) (h : n < 10 ^ 21) : (Nat.toDigits 10 n).length ≤ 21 := by
  have := Nat.repr_length n 21 (by decide) h
  simpa [Nat.repr, String.length, List.asString] using this

/-- Below `10^21` a double above `2^53` prints as the decimal digits of a
numeral that rounds to it. -/
theorem largeToChars_eq (x : Nat) (hx : roundNat x = x) (hlt : x < 10 ^ 21) :
    ∃ c, largeToChars x = Nat.toDigits 10 c ∧ roundNat c = x := by
  refine ⟨shortestDecimal x (Nat.toDigits 10 x).length, ?_, roundNat_shortestDecimal x hx _⟩
  have hc := shortestDecimal_lt x hlt _ (toDigits_length_le x hlt)
  unfold largeToChars
  simp only
  rw [if_pos (toDigits_length_le _ hc)]

/-- A double of integer value below `10^21` prints as the decimal digits of a
numeral that rounds to it. -/
theorem natToChars_eq (x : Nat) (hx : roundNat x = x) (hlt : x < 10 ^ 21) :
    ∃ c, natToChars x = Nat.toDigits 10 c ∧ roundNat c = x := by
  unfold natToChars
  split
  · exact ⟨x, rfl, hx⟩
  · exact largeToChars_eq x hx hlt

theorem ten_pow_21_lt_overflowBound : 10 ^ 21 < overflowBound := by
  unfold overflowBound
  norm_num

/-- Parsing the printed form of a double of integer value below `10^21` in
magnitude gives the double back. -/
theorem parseInt_toJSString (v : Int) (hv : roundNat v.natAbs = v.natAbs)
    (hlt : v.natAbs < 10 ^ 21) : parseInt (JSNum.int v).toJSString = JSNum.int v := by
  have hov := ten_pow_21_lt_overflowBound
  unfold JSNum.toJSString
  cases v with
  | ofNat n =>
    have hn : roundNat n = n := hv
    have hl : n < 10 ^ 21 := hlt
    obtain ⟨c, hc, hr⟩ := natToChars_eq n hn hl
    simp only [JSNum.toChars, hc]
    rw [(parseInt_digits c).1]
    unfold toDouble
    simp only [Int.natAbs_ofNat, hr]
    rw [if_neg (by omega), if_neg (by omega)]
    rfl
  | negSucc n =>
    have hn : roundNat (n + 1) = n + 1 := hv
    have hl : n + 1 < 10 ^ 21 := hlt
    obtain ⟨c, hc, hr⟩ := natToChars_eq (n + 1) hn hl
    simp only [JSNum.toChars, hc]
    rw [(parseInt_digits c).2]
    unfold toDouble
    simp only [Int.natAbs_neg, Int.natAbs_ofNat, hr]
    rw [if_neg (by omega)]
    split
    · rfl
    · rename_i hneg
      have hc0 : c = 0 := by omega
      subst hc0
      have : roundNat 0 = 0 := by decide
      omega

theorem exactBound_lt_ten_pow_21 : exactBound < 10 ^ 21 := by
  unfold exactBound
  norm_num

/-- Parsing the printed form of `NaN` or of an integer of magnitude at most
`2^53` gives the number back. -/
theorem parseInt_toJSString_exact (x : JSNum) (h : x.IsExact) : parseInt x.toJSString = x := by
  cases x with
  | nan => decide
  | posInf => exact absurd h (by decide)
  | negInf => exact absurd h (by decide)
  | int v =>
    have hb : v.natAbs ≤ exactBound := h
    have := exactBound_lt_ten_pow_21
    exact parseInt_toJSString v (roundNat_of_le _ hb) (by omega)

theorem toDigits_ne_nil (n : Nat) : Nat.toDigits 10 n ≠ [] := by
  obtain ⟨c, cs, h, -, -⟩ := toDigits_spec n
  rw [h]
  simp

theorem natToChars_ne_nil (m : Nat) : natToChars m ≠ [] := by
  unfold natToChars
  split
  · exact toDigits_ne_nil m
  · unfold largeToChars
    simp only
    split
    · exact toDigits_ne_nil _
    · split
      · exact toDigits_ne_nil _
      · simp
      · simp

/-- The printed form of a number is never the empty string. -/
theorem truthy_toJSString (x : JSNum) : truthy (some x.toJSString) = true := by
  have hne : x.toChars ≠ [] := by
    cases x with
    | nan => simp [JSNum.toChars]
    | posInf => simp [JSNum.toChars]
    | negInf => simp [JSNum.toChars]
    | int v =>
      cases v with
      | ofNat n => simpa [JSNum.toChars] using natToChars_ne_nil n
      | negSucc n => simp [JSNum.toChars]
  unfold truthy JSNum.toJSString
  simp only [bne_iff_ne, ne_eq]
  intro h
  apply hne
  have := congrArg String.data h
  simpa using this

/-! ## Theme and settings -/

theorem initTheme_dark (s : State) (h : s.storage.theme = some "dark") :
    initTheme s = { s with bodyDarkMode := true, bodyLightMode := false,
                           sunHidden := true, moonHidden := false } := by
  simp [initTheme, h, truthy]

theorem initTheme_light (s : State) (h : s.storage.theme ≠ some "dark") :
    initTheme s = { s with bodyLightMode := true, bodyDarkMode := false,
                           sunHidden := false, moonHidden := true } := by
  unfold initTheme
  have : ¬ ((if truthy s.storage.theme = true then s.storage.theme.getD "" else "light")
      = "dark") := by
    intro hc
    split at hc
    · cases hth : s.storage.theme with
      | none => simp [hth] at hc
      | some x =>
        rw [hth] at hc
        simp only [Option.getD_some] at hc
        exact h (by rw [hth, hc])
    · exact absurd hc (by decide)
  simp only [this, if_false]

theorem initSettings_viewTime (s : State) :
    (initSettings s).viewTime =
      if truthy s.storage.viewTime then parseInt (s.storage.viewTime.getD "") else s.viewTime := by
  unfold initSettings updateTimes
  by_cases h1 : truthy s.storage.viewTime = true <;>
    by_cases h2 : truthy s.storage.rebuildTime = true <;> simp [h1, h2]

theorem initSettings_rebuildTime (s : State) :
    (initSettings s).rebuildTime =
      if truthy s.storage.rebuildTime then parseInt (s.storage.rebuildTime.getD "")
      else s.rebuildTime := by
  unfold initSettings updateTimes
  by_cases h1 : truthy s.storage.viewTime = true <;>
    by_cases h2 : truthy s.storage.rebuildTime = true <;> simp [h1, h2]

theorem initSettings_storage (s : State) :
    (initSettings s).storage =
      { s.storage with
        viewTime := some (initSettings s).viewTime.toJSString
        rebuildTime := some (initSettings s).rebuildTime.toJSString } := by
  unfold initSettings updateTimes
  by_cases h1 : truthy s.storage.viewTime = true <;>
    by_cases h2 : truthy s.storage.rebuildTime = true <;> simp [h1, h2]

theorem initTheme_frame (s : State) :
    (initTheme s).storage = s.storage ∧ (initTheme s).viewTime = s.viewTime ∧
      (initTheme s).rebuildTime = s.rebuildTime := by
  by_cases h : s.storage.theme = some "dark"
  · rw [initTheme_dark s h]; exact ⟨rfl, rfl, rfl⟩
  · rw [initTheme_light s h]; exact ⟨rfl, rfl, rfl⟩

theorem shownTheme_initTheme (s : State) :
    shownTheme (initTheme s) = some (persistedTheme s.storage) := by
  by_cases h : s.storage.theme = some "dark"
  · rw [initTheme_dark s h]; simp [shownTheme, persistedTheme, h]
  · rw [initTheme_light s h]; simp [shownTheme, persistedTheme, h]

theorem shownTheme_initSettings (s : State) :
    shownTheme (initSettings s) = shownTheme s := by
  unfold initSettings updateTimes shownTheme
  by_cases h1 : truthy s.storage.viewTime = true <;>
    by_cases h2 : truthy s.storage.rebuildTime = true <;> simp [h1, h2]

theorem shownTheme_pageLoad (document : State) (st : Storage) :
    shownTheme (pageLoad document st) = some (persistedTheme st) := by
  have h : shownTheme (initTheme (scriptStart document st)) = some (persistedTheme st) :=
    shownTheme_initTheme (scriptStart document st)
  have h2 := shownTheme_initSettings (initTheme (scriptStart document st))
  have h3 : shownTheme (pageLoad document st)
      = shownTheme (initSettings (initTheme (scriptStart document st))) := by
    simp [pageLoad, domContentLoaded, shownTheme]
  rw [h3, h2, h]

theorem pageLoad_viewTime (document : State) (st : Storage) :
    (pageLoad document st).viewTime =
      if truthy st.viewTime then parseInt (st.viewTime.getD "") else JSNum.int 30 := by
  have h := initSettings_viewTime (initTheme (scriptStart document st))
  obtain ⟨f1, f2, f3⟩ := initTheme_frame (scriptStart document st)
  rw [f1, f2] at h
  exact h

theorem pageLoad_rebuildTime (document : State) (st : Storage) :
    (pageLoad document st).rebuildTime =
      if truthy st.rebuildTime then parseInt (st.rebuildTime.getD "") else JSNum.int 20 := by
  have h := initSettings_rebuildTime (initTheme (scriptStart document st))
  obtain ⟨f1, f2, f3⟩ := initTheme_frame (scriptStart document st)
  rw [f1, f3] at h
  exact h

/-! ## Claims on the theme and the settings -/

/-- C10: in the state that `initTheme` establishes, the document shows the
persisted theme; one `toggleTheme` shows and persists the other theme; two
calls give back the state after `initTheme`, with the `theme` entry holding the
name of the original theme, so that the persisted theme is the original one
and a reload shows it again. -/
theorem toggleTheme_twice_restores (document s : State) :
    shownTheme (initTheme s) = some (persistedTheme s.storage) ∧
    shownTheme (toggleTheme (initTheme s)) = some (persistedTheme s.storage).flip ∧
    (toggleTheme (initTheme s)).storage.theme = some (persistedTheme s.storage).flip.name ∧
    toggleTheme (toggleTheme (initTheme s)) =
      { initTheme s with
        storage := { s.storage with theme := some (persistedTheme s.storage).name } } ∧
    persistedTheme (toggleTheme (toggleTheme (initTheme s))).storage
      = persistedTheme s.storage ∧
    shownTheme (initTheme (toggleTheme (toggleTheme (initTheme s))))
      = some (persistedTheme s.storage) ∧
    shownTheme (reload document (toggleTheme (toggleTheme (initTheme s))))
      = some (persistedTheme s.storage) := by
  have key : toggleTheme (toggleTheme (initTheme s)) =
      { initTheme s with
        storage := { s.storage with theme := some (persistedTheme s.storage).name } } := by
    by_cases h : s.storage.theme = some "dark"
    · rw [initTheme_dark s h]; simp [toggleTheme, persistedTheme, h, Theme.name]
    · rw [initTheme_light s h]; simp [toggleTheme, persistedTheme, h, Theme.name]
  have hp : persistedTheme (toggleTheme (toggleTheme (initTheme s))).storage
      = persistedTheme s.storage := by
    rw [key]
    by_cases h : s.storage.theme = some "dark" <;> simp [persistedTheme, h, Theme.name]
  refine ⟨shownTheme_initTheme s, ?_, ?_, key, hp, ?_, ?_⟩
  · by_cases h : s.storage.theme = some "dark"
    · rw [initTheme_dark s h]; simp [toggleTheme, shownTheme, persistedTheme, h, Theme.flip]
    · rw [initTheme_light s h]; simp [toggleTheme, shownTheme, persistedTheme, h, Theme.flip]
  · by_cases h : s.storage.theme = some "dark"
    · rw [initTheme_dark s h]; simp [toggleTheme, persistedTheme, h, Theme.flip, Theme.name]
    · rw [initTheme_light s h]; simp [toggleTheme, persistedTheme, h, Theme.flip, Theme.name]
  · rw [shownTheme_initTheme, hp]
  · unfold reload
    rw [shownTheme_pageLoad, hp]

/-- C7 as stated fails: a preset button whose attributes are not numeric, and
the arguments zero and minus five, change the durations in memory and the
persisted entries although they are not positive integers. -/
theorem updateTimes_invalid_counterexample :
    ¬ (parseInt "fast").IsPositiveInt ∧
    (presetClick "fast" "slow" (pageLoad blankDocument Storage.empty)).viewTime = JSNum.nan ∧
    (pageLoad blankDocument Storage.empty).viewTime = JSNum.int 30 ∧
    (presetClick "fast" "slow" (pageLoad blankDocument Storage.empty)).storage.viewTime
      = some "NaN" ∧
    (pageLoad blankDocument Storage.empty).storage.viewTime = some "30" ∧
    ¬ (JSNum.int 0).IsPositiveInt ∧
    (updateTimes (JSNum.int 0) (JSNum.int (-5)) (pageLoad blankDocument Storage.empty)).viewTime
      = JSNum.int 0 ∧
    (updateTimes (JSNum.int 0) (JSNum.int (-5))
      (pageLoad blankDocument Storage.empty)).storage.rebuildTime = some "-5" := by
  decide

/-- C7 as amended: `updateTimes` performs no validation; for all arguments
that are `NaN` or integers of magnitude at most `2^53`, zero and the negative
ones included, the durations in memory become the arguments and the two
persisted entries become their printed forms, which `parseInt` reads back as
the arguments, the `theme` entry being kept. -/
theorem updateTimes_sets (a b : JSNum) (s : State) (ha : a.IsExact) (hb : b.IsExact) :
    (updateTimes a b s).viewTime = a ∧
    (updateTimes a b s).rebuildTime = b ∧
    (updateTimes a b s).storage.viewTime = some a.toJSString ∧
    (updateTimes a b s).storage.rebuildTime = some b.toJSString ∧
    (updateTimes a b s).storage.theme = s.storage.theme ∧
    parseInt a.toJSString = a ∧
    parseInt b.toJSString = b :=
  ⟨rfl, rfl, rfl, rfl, rfl, parseInt_toJSString_exact a ha, parseInt_toJSString_exact b hb⟩

/-- C7 as amended, at the arguments `NaN` and zero on the blank document. -/
theorem updateTimes_sets_witness :
    (updateTimes JSNum.nan (JSNum.int 0) blankDocument).viewTime = JSNum.nan ∧
    (updateTimes JSNum.nan (JSNum.int 0) blankDocument).storage.viewTime = some "NaN" ∧
    (updateTimes JSNum.nan (JSNum.int 0) blankDocument).storage.rebuildTime = some "0" :=
  have h := updateTimes_sets JSNum.nan (JSNum.int 0) blankDocument (by decide) (by decide)
  ⟨h.1, h.2.2.1, h.2.2.2.1⟩

/-- C8 as stated fails: with the stored view time `abc` the duration after
loading is `NaN`, not the default, and with the stored rebuild time `0` or
`-3` the duration is not positive. -/
theorem initSettings_invalid_counterexample :
    (pageLoad blankDocument ⟨none, some "abc", some "0"⟩).viewTime = JSNum.nan ∧
    (pageLoad blankDocument ⟨none, some "abc", some "0"⟩).viewTime ≠ JSNum.int 30 ∧
    ¬ (pageLoad blankDocument ⟨none, some "abc", some "0"⟩).viewTime.IsPositiveInt ∧
    (pageLoad blankDocument ⟨none, some "abc", some "0"⟩).rebuildTime = JSNum.int 0 ∧
    ¬ (pageLoad blankDocument ⟨none, some "abc", some "0"⟩).rebuildTime.IsPositiveInt ∧
    (pageLoad blankDocument ⟨none, some "abc", some "0"⟩).storage.viewTime = some "NaN" ∧
    (initSettings (scriptStart blankDocument ⟨none, some "x", some "-3"⟩)).rebuildTime
      = JSNum.int (-3) := by
  decide

/-- C8 as amended: loading keeps a default only for an entry that is absent
or empty; every other stored string is passed through `parseInt` without a
check, so for stored strings that `parseInt` reads as `NaN` or as an integer of
magnitude at most `2^53` the duration is whatever `parseInt` returns, again
`NaN` or such an integer, and both durations are persisted again in printed
form. -/
theorem initSettings_loads (document : State) (st : Storage)
    (hv : (parseInt (st.viewTime.getD "")).IsExact)
    (hr : (parseInt (st.rebuildTime.getD "")).IsExact) :
    (pageLoad document st).viewTime =
      (if truthy st.viewTime then parseInt (st.viewTime.getD "") else JSNum.int 30) ∧
    (pageLoad document st).rebuildTime =
      (if truthy st.rebuildTime then parseInt (st.rebuildTime.getD "") else JSNum.int 20) ∧
    (pageLoad document st).viewTime.IsExact ∧
    (pageLoad document st).rebuildTime.IsExact ∧
    (pageLoad document st).storage.viewTime
      = some (pageLoad document st).viewTime.toJSString ∧
    (pageLoad document st).storage.rebuildTime
      = some (pageLoad document st).rebuildTime.toJSString := by
  refine ⟨pageLoad_viewTime document st, pageLoad_rebuildTime document st, ?_, ?_, ?_, ?_⟩
  · rw [pageLoad_viewTime]
    split
    · exact hv
    · decide
  · rw [pageLoad_rebuildTime]
    split
    · exact hr
    · decide
  · show (initSettings (initTheme (scriptStart document st))).storage.viewTime = _
    rw [initSettings_storage]; rfl
  · show (initSettings (initTheme (scriptStart document st))).storage.rebuildTime = _
    rw [initSettings_storage]; rfl

/-- C8 as amended, at the stored strings `abc` and `7` on the blank
document. -/
theorem initSettings_loads_witness :
    (pageLoad blankDocument ⟨none, some "abc", some "7"⟩).viewTime = JSNum.nan ∧
    (pageLoad blankDocument ⟨none, some "abc", some "7"⟩).rebuildTime = JSNum.int 7 ∧
    (pageLoad blankDocument ⟨none, some "abc", some "7"⟩).storage.viewTime = some "NaN" :=
  have h := initSettings_loads blankDocument ⟨none, some "abc", some "7"⟩
    (by decide) (by decide)
  ⟨h.1, h.2.1, h.2.2.2.2.1⟩

/-- C9 as stated fails: `updateTimes(v, r)` with `v = 10^21`, a positive
integer that a preset attribute can supply, persists `1e+21`, and the reload
reads it as 1. -/
theorem preferences_roundtrip_counterexample :
    parseInt "1000000000000000000000" = JSNum.int 1000000000000000000000 ∧
    (updateTimes (JSNum.int 1000000000000000000000) (JSNum.int 10)
      blankDocument).storage.viewTime = some "1e+21" ∧
    (reload blankDocument (updateTimes (JSNum.int 1000000000000000000000) (JSNum.int 10)
      blankDocument)).viewTime = JSNum.int 1 ∧
    (reload blankDocument (updateTimes (JSNum.int 1000000000000000000000) (JSNum.int 10)
      blankDocument)).viewTime ≠ JSNum.int 1000000000000000000000 := by
  decide

/-- C9 as amended: for all integers `v` and `r` that are doubles (as every
integer up to `2^53` is) and below `10^21` in magnitude, in particular the
positive ones, `updateTimes(v, r)` followed by a reload gives the durations `v`
and `r`; and a page load with no persisted entry gives the view time 30, the
rebuild time 20 and the light theme. -/
theorem preferences_roundtrip (document s : State) (v r : Int)
    (hv : roundNat v.natAbs = v.natAbs) (hvb : v.natAbs < 10 ^ 21)
    (hr : roundNat r.natAbs = r.natAbs) (hrb : r.natAbs < 10 ^ 21) :
    (reload document (updateTimes (JSNum.int v) (JSNum.int r) s)).viewTime = JSNum.int v ∧
    (reload document (updateTimes (JSNum.int v) (JSNum.int r) s)).rebuildTime = JSNum.int r ∧
    (pageLoad document Storage.empty).viewTime = JSNum.int 30 ∧
    (pageLoad document Storage.empty).rebuildTime = JSNum.int 20 ∧
    shownTheme (pageLoad document Storage.empty) = some Theme.light := by
  refine ⟨?_, ?_, ?_, ?_, ?_⟩
  · unfold reload
    rw [pageLoad_viewTime]
    show (if truthy (some (JSNum.int v).toJSString) = true then
      parseInt ((some (JSNum.int v).toJSString).getD "") else JSNum.int 30) = _
    rw [truthy_toJSString]
    simp [parseInt_toJSString v hv hvb]
  · unfold reload
    rw [pageLoad_rebuildTime]
    show (if truthy (some (JSNum.int r).toJSString) = true then
      parseInt ((some (JSNum.int r).toJSString).getD "") else JSNum.int 20) = _
    rw [truthy_toJSString]
    simp [parseInt_toJSString r hr hrb]
  · rw [pageLoad_viewTime]; rfl
  · rw [pageLoad_rebuildTime]; rfl
  · rw [shownTheme_pageLoad]; rfl

/-- C9 as amended, at the durations (10, 10) on the blank document. -/
theorem preferences_roundtrip_witness :
    (reload blankDocument
      (updateTimes (JSNum.int 10) (JSNum.int 10) blankDocument)).viewTime = JSNum.int 10 ∧
    (reload blankDocument
      (updateTimes (JSNum.int 10) (JSNum.int 10) blankDocument)).rebuildTime = JSNum.int 10 ∧
    (pageLoad blankDocument Storage.empty).viewTime = JSNum.int 30 ∧
    (pageLoad blankDocument Storage.empty).rebuildTime = JSNum.int 20 ∧
    shownTheme (pageLoad blankDocument Storage.empty) = some Theme.light :=
  preferences_roundtrip blankDocument blankDocument 10 10 (by decide) (by decide) (by decide)
    (by decide)

/-! ## The countdown -/

theorem ticks_succ (n : Nat) (s : State) : ticks (n + 1) s = tick (ticks n s) := by
  induction n generalizing s with
  | zero => rfl
  | succ n ih =>
    show ticks (n + 1) (tick s) = tick (ticks n (tick s))
    rw [ih]

theorem ticks_add (m n : Nat) (s : State) : ticks (m + n) s = ticks n (ticks m s) := by
  induction n with
  | zero => rfl
  | succ n ih => rw [← Nat.add_assoc, ticks_succ, ih, ticks_succ]

theorem clearInterval_nil (i : Option Nat) (s : State) (h : s.timers = []) :
    clearInterval i s = { s with timers := [] } := by
  cases s
  cases i <;> simp_all [clearInterval]

theorem clearInterval_single (s : State) (t : Interval) (h : s.timers = [t]) :
    clearInterval (some t.id) s = { s with timers := [] } := by
  simp [clearInterval, h]

theorem clearInterval_of_inv (s : State) (h : TimerInv s) :
    clearInterval s.countdown s = { s with timers := [] } := by
  obtain ⟨hlen, hcd, -⟩ := h
  cases hts : s.timers with
  | nil => exact clearInterval_nil _ s hts
  | cons t ts =>
    have hts0 : ts = [] := by
      rw [hts] at hlen
      simp at hlen
      exact hlen
    subst hts0
    have hc := hcd t (by rw [hts]; simp)
    have h1 := clearInterval_single s t hts
    rw [← hc] at h1
    exact h1

theorem tick_single (s : State) (t : Interval) (hts : s.timers = [t]) :
    tick s = intervalBody t s := by
  simp [tick, fireInterval, hts]

theorem tick_nil (s : State) (hts : s.timers = []) : tick s = s := by
  simp [tick, hts]

theorem ticks_nil (n : Nat) (s : State) (hts : s.timers = []) : ticks n s = s := by
  induction n with
  | zero => rfl
  | succ n ih => rw [ticks_succ, ih, tick_nil s hts]

theorem intervalBody_continue (s : State) (t : Interval) (hts : s.timers = [t])
    (hz : t.timeLeft.dec.leZero = false) :
    intervalBody t s = updateTimerDisplay t.timeLeft.dec
      { s with timers := [{ t with timeLeft := t.timeLeft.dec }] } := by
  simp [intervalBody, hz, hts]

theorem intervalBody_expire (s : State) (t : Interval) (hts : s.timers = [t])
    (hcd : s.countdown = some t.id) (hz : t.timeLeft.dec.leZero = true) :
    intervalBody t s = runCallback t.callback
      { updateTimerDisplay t.timeLeft.dec s with
        timers := []
        fullscreenTimerHidden := true
        currentPhase := none
        trace := s.trace ++ [Effect.rendered t.timeLeft.dec, Effect.expired t.callback] } := by
  unfold intervalBody
  simp only [hz, if_true]
  congr 1
  cases hfs : s.isFullscreenMode <;>
    simp [updateTimerDisplay, hfs, hcd, hts, clearInterval]

theorem startCountdown_eq_counting (s : State) (d : Nat) (phase : Phase) (cb : Callback)
    (h : TimerInv s) :
    startCountdown (JSNum.int d) phase cb s
      = counting { s with timers := [], currentPhase := some phase } cb d 0 := by
  unfold startCountdown
  rw [clearInterval_of_inv s h]
  cases hfs : s.isFullscreenMode <;>
    simp [updateTimerDisplay, counting, timerLabel, renderedValues, hfs]

theorem dec_of_exact (d k : Nat) (hb : d ≤ exactBound) (h : k + 1 ≤ d) :
    (JSNum.int ((d : Int) - (k : Int))).dec = JSNum.int ((d : Int) - ((k + 1 : Nat) : Int)) := by
  have he : (d : Int) - (k : Int) - 1 = (d : Int) - ((k + 1 : Nat) : Int) := by omega
  show toDouble ((d : Int) - (k : Int) - 1) = _
  rw [he]
  exact toDouble_of_exact _ (by omega)

theorem tick_counting (pre : State) (cb : Callback) (d k : Nat) (hb : d ≤ exactBound)
    (h : k + 1 < d) :
    tick (counting pre cb d k) = counting pre cb d (k + 1) := by
  have hdec := dec_of_exact d k hb (by omega)
  have hz : (JSNum.int ((d : Int) - ((k + 1 : Nat) : Int))).leZero = false := by
    simp only [JSNum.leZero, decide_eq_false_iff_not]; omega
  rw [tick_single _ ⟨pre.nextTimerId, JSNum.int ((d : Int) - (k : Int)), cb⟩ rfl,
    intervalBody_continue _ _ rfl (by rw [hdec]; exact hz)]
  simp only [hdec]
  cases hfs : pre.isFullscreenMode <;>
    simp [updateTimerDisplay, counting, timerLabel, renderedValues, hfs]

theorem tick_counting_expire (pre : State) (cb : Callback) (d k : Nat) (hb : d ≤ exactBound)
    (h : k + 1 = d) :
    tick (counting pre cb d k) = runCallback cb (expiring pre cb d) := by
  have hdec2 : JSNum.int ((d : Int) - ((k + 1 : Nat) : Int)) = JSNum.int 0 := by
    congr 1; omega
  have hdec : (JSNum.int ((d : Int) - (k : Int))).dec = JSNum.int 0 := by
    rw [dec_of_exact d k hb (by omega), hdec2]
  have hz : (JSNum.int 0).leZero = true := by decide
  rw [tick_single _ ⟨pre.nextTimerId, JSNum.int ((d : Int) - (k : Int)), cb⟩ rfl,
    intervalBody_expire _ _ rfl rfl (by rw [hdec]; exact hz)]
  simp only [hdec]
  congr 1
  subst h
  cases hfs : pre.isFullscreenMode <;>
    simp [updateTimerDisplay, counting, expiring, timerLabel, renderedValues, hfs, hdec2]

theorem ticks_counting (pre : State) (cb : Callback) (d : Nat) (hb : d ≤ exactBound) :
    ∀ k, k < d → ticks k (counting pre cb d 0) = counting pre cb d k := by
  intro k
  induction k with
  | zero => intro _; rfl
  | succ k ih =>
    intro h
    rw [ticks_succ, ih (by omega), tick_counting pre cb d k hb h]

theorem ticks_counting_expire (pre : State) (cb : Callback) (d : Nat) (hb : d ≤ exactBound)
    (h : 0 < d) :
    ticks d (counting pre cb d 0) = runCallback cb (expiring pre cb d) := by
  obtain ⟨k, rfl⟩ : ∃ k, d = k + 1 := ⟨d - 1, by omega⟩
  rw [ticks_succ, ticks_counting pre cb (k + 1) hb k (by omega),
    tick_counting_expire pre cb (k + 1) k hb rfl]

theorem updateTimerDisplay_eq (x : JSNum) (s : State) :
    updateTimerDisplay x s =
      { s with
        timerText := timerLabel x
        trace := s.trace ++ [Effect.rendered x]
        fullscreenTimerText := if s.isFullscreenMode then timerLabel x else s.fullscreenTimerText
        fullscreenTimerHidden := if s.isFullscreenMode then false else s.fullscreenTimerHidden } := by
  cases hfs : s.isFullscreenMode <;> simp [updateTimerDisplay, timerLabel, hfs]

theorem timerInv_cases (s : State) (h : TimerInv s) :
    s.timers = [] ∨ ∃ t, s.timers = [t] ∧ s.countdown = some t.id ∧ t.id < s.nextTimerId := by
  obtain ⟨hlen, hcd, hid⟩ := h
  cases hts : s.timers with
  | nil => exact Or.inl rfl
  | cons t ts =>
    have hts0 : ts = [] := by
      rw [hts] at hlen
      simp at hlen
      exact hlen
    subst hts0
    exact Or.inr ⟨t, rfl, hcd t (by rw [hts]; simp), hid t (by rw [hts]; simp)⟩

theorem timerInv_of_nil (s : State) (h : s.timers = []) : TimerInv s := by
  unfold TimerInv
  rw [h]
  simp

theorem timerInv_of_single (s : State) (t : Interval) (h : s.timers = [t])
    (hc : s.countdown = some t.id) (hi : t.id < s.nextTimerId) : TimerInv s := by
  unfold TimerInv
  rw [h]
  simp [hc, hi]

/-- What `startCountdown` does to the fields the invariants speak about. -/
theorem startCountdown_fields (seconds : JSNum) (phase : Phase) (cb : Callback) (s : State)
    (h : TimerInv s) :
    (startCountdown seconds phase cb s).timers = [⟨s.nextTimerId, seconds, cb⟩] ∧
    (startCountdown seconds phase cb s).countdown = some s.nextTimerId ∧
    (startCountdown seconds phase cb s).nextTimerId = s.nextTimerId + 1 ∧
    (startCountdown seconds phase cb s).trace = s.trace ++ [Effect.rendered seconds] ∧
    (startCountdown seconds phase cb s).round = s.round ∧
    (startCountdown seconds phase cb s).nextBtnDisabled = s.nextBtnDisabled ∧
    (startCountdown seconds phase cb s).repeatBtnDisabled = s.repeatBtnDisabled ∧
    (startCountdown seconds phase cb s).currentPhase = some phase := by
  unfold startCountdown
  rw [clearInterval_of_inv s h]
  simp [updateTimerDisplay_eq]

/-- A rebuild callback starts no countdown and records nothing. -/
theorem runCallback_rebuild_fields (cb : Callback) (s : State) (h : cb.isRebuild = true) :
    (runCallback cb s).timers = s.timers ∧
    (runCallback cb s).countdown = s.countdown ∧
    (runCallback cb s).nextTimerId = s.nextTimerId ∧
    (runCallback cb s).trace = s.trace ∧
    (runCallback cb s).round = s.round ∧
    (runCallback cb s).currentPhase = s.currentPhase := by
  cases cb
  · exact absurd h (by decide)
  · unfold runCallback
    by_cases hr : s.round < 2 <;> simp [hr]
  · exact absurd h (by decide)
  · simp [runCallback]

theorem tick_cases (s : State) (h : TimerInv s) :
    (s.timers = [] ∧ tick s = s) ∨
    ∃ t, s.timers = [t] ∧ s.countdown = some t.id ∧ t.id < s.nextTimerId ∧
      tick s = intervalBody t s := by
  rcases timerInv_cases s h with h0 | ⟨t, ht, hc, hi⟩
  · exact Or.inl ⟨h0, tick_nil s h0⟩
  · exact Or.inr ⟨t, ht, hc, hi, tick_single s t ht⟩

theorem fireInterval_cases (id : Nat) (s : State) (h : TimerInv s) :
    fireInterval id s = s ∨
    ∃ t, s.timers = [t] ∧ s.countdown = some t.id ∧ t.id < s.nextTimerId ∧
      fireInterval id s = intervalBody t s := by
  rcases timerInv_cases s h with h0 | ⟨t, ht, hc, hi⟩
  · left; simp [fireInterval, h0]
  · by_cases hid : t.id = id
    · right; exact ⟨t, ht, hc, hi, by simp [fireInterval, ht, hid]⟩
    · left; simp [fireInterval, ht, hid]

/-- The state in which an expiring interval calls its callback. -/
theorem intervalBody_expire_fields (s : State) (t : Interval) (hts : s.timers = [t])
    (hcd : s.countdown = some t.id) (hz : t.timeLeft.dec.leZero = true) :
    ∃ e, intervalBody t s = runCallback t.callback e ∧
      e.timers = [] ∧ e.countdown = s.countdown ∧ e.nextTimerId = s.nextTimerId ∧
      e.trace = s.trace ++ [Effect.rendered t.timeLeft.dec, Effect.expired t.callback] ∧
      e.round = s.round ∧ e.nextBtnDisabled = s.nextBtnDisabled ∧
      e.repeatBtnDisabled = s.repeatBtnDisabled ∧ e.currentPhase = none := by
  refine ⟨_, intervalBody_expire s t hts hcd hz, ?_⟩
  simp [updateTimerDisplay_eq]

/-- The state after a firing that does not expire. -/
theorem intervalBody_continue_fields (s : State) (t : Interval) (hts : s.timers = [t])
    (hz : t.timeLeft.dec.leZero = false) :
    (intervalBody t s).timers = [{ t with timeLeft := t.timeLeft.dec }] ∧
    (intervalBody t s).countdown = s.countdown ∧
    (intervalBody t s).nextTimerId = s.nextTimerId ∧
    (intervalBody t s).trace = s.trace ++ [Effect.rendered t.timeLeft.dec] ∧
    (intervalBody t s).round = s.round ∧
    (intervalBody t s).nextBtnDisabled = s.nextBtnDisabled ∧
    (intervalBody t s).repeatBtnDisabled = s.repeatBtnDisabled ∧
    (intervalBody t s).currentPhase = s.currentPhase := by
  rw [intervalBody_continue s t hts hz]
  simp [updateTimerDisplay_eq]

/-- While only rebuild countdowns other than the one of `cb` are live, a tick
keeps it so and does not call `cb`. -/
theorem tick_no_more (cb : Callback) (s : State) (h : TimerInv s)
    (hk : ∀ t ∈ s.timers, t.callback.isRebuild = true ∧ t.callback ≠ cb) :
    TimerInv (tick s) ∧
    (∀ t ∈ (tick s).timers, t.callback.isRebuild = true ∧ t.callback ≠ cb) ∧
    (tick s).trace.count (Effect.expired cb) = s.trace.count (Effect.expired cb) := by
  rcases tick_cases s h with ⟨-, h0⟩ | ⟨t, ht, hc, hi, heq⟩
  · rw [h0]; exact ⟨h, hk, rfl⟩
  · obtain ⟨hreb, hne⟩ := hk t (by rw [ht]; simp)
    rw [heq]
    cases hz : t.timeLeft.dec.leZero with
    | false =>
      obtain ⟨f1, f2, f3, f4, -⟩ := intervalBody_continue_fields s t ht hz
      refine ⟨timerInv_of_single _ _ f1 (by rw [f2, hc]) (by rw [f3]; exact hi), ?_, ?_⟩
      · intro u hu
        rw [f1] at hu
        simp only [List.mem_singleton] at hu
        subst hu
        exact ⟨hreb, hne⟩
      · rw [f4]
        simp
    | true =>
      obtain ⟨e, he, e1, e2, e3, e4, -⟩ := intervalBody_expire_fields s t ht hc hz
      obtain ⟨r1, r2, r3, r4, -⟩ := runCallback_rebuild_fields t.callback e hreb
      rw [he]
      refine ⟨timerInv_of_nil _ (by rw [r1, e1]), ?_, ?_⟩
      · intro u hu
        rw [r1, e1] at hu
        simp at hu
      · rw [r4, e4]
        have : Effect.expired t.callback ≠ Effect.expired cb := by
          intro hc2
          exact hne (Effect.expired.inj hc2)
        simp [List.count_cons, this]

theorem ticks_no_more (cb : Callback) (n : Nat) : ∀ s : State, TimerInv s →
    (∀ t ∈ s.timers, t.callback.isRebuild = true ∧ t.callback ≠ cb) →
    (ticks n s).trace.count (Effect.expired cb) = s.trace.count (Effect.expired cb) := by
  induction n with
  | zero => intro s _ _; rfl
  | succ n ih =>
    intro s h hk
    obtain ⟨h1, h2, h3⟩ := tick_no_more cb s h hk
    show (ticks n (tick s)).trace.count (Effect.expired cb) = _
    rw [ih (tick s) h1 h2, h3]

theorem count_expired_renderedValues (cb : Callback) (d k : Nat) :
    (renderedValues d k).count (Effect.expired cb) = 0 := by
  induction k with
  | zero => simp [renderedValues]
  | succ k ih => simp [renderedValues, ih]

/-- After the callback of an expired countdown has run, further ticks never
call it again. -/
theorem ticks_after_expiry (cb : Callback) (e : State) (he : e.timers = []) (n : Nat) :
    (ticks n (runCallback cb e)).trace.count (Effect.expired cb)
      = e.trace.count (Effect.expired cb) := by
  have hinv : TimerInv e := timerInv_of_nil e he
  cases cb with
  | exerciseRebuildDone =>
    obtain ⟨r1, -, -, r4, -⟩ := runCallback_rebuild_fields Callback.exerciseRebuildDone e rfl
    rw [ticks_nil n _ (by rw [r1, he]), r4]
  | repeatRebuildDone =>
    obtain ⟨r1, -, -, r4, -⟩ := runCallback_rebuild_fields Callback.repeatRebuildDone e rfl
    rw [ticks_nil n _ (by rw [r1, he]), r4]
  | exerciseViewDone =>
    have hinv2 : TimerInv { e with imageDisplay := "none", instructions := rebuildInstructions } :=
      timerInv_of_nil _ he
    obtain ⟨f1, f2, f3, f4, -⟩ := startCountdown_fields e.rebuildTime Phase.rebuild
      Callback.exerciseRebuildDone _ hinv2
    have hrun : runCallback Callback.exerciseViewDone e
        = startCountdown e.rebuildTime Phase.rebuild Callback.exerciseRebuildDone
            { e with imageDisplay := "none", instructions := rebuildInstructions } := rfl
    rw [hrun, ticks_no_more _ n _ (timerInv_of_single _ _ f1 (by rw [f2]) (by rw [f3]; simp))
      (by rw [f1]; simp [Callback.isRebuild]), f4]
    simp
  | repeatViewDone =>
    have hinv2 : TimerInv { e with imageDisplay := "none", instructions := rebuildInstructions } :=
      timerInv_of_nil _ he
    obtain ⟨f1, f2, f3, f4, -⟩ := startCountdown_fields e.rebuildTime Phase.rebuild
      Callback.repeatRebuildDone _ hinv2
    have hrun : runCallback Callback.repeatViewDone e
        = startCountdown e.rebuildTime Phase.rebuild Callback.repeatRebuildDone
            { e with imageDisplay := "none", instructions := rebuildInstructions } := rfl
    rw [hrun, ticks_no_more _ n _ (timerInv_of_single _ _ f1 (by rw [f2]) (by rw [f3]; simp))
      (by rw [f1]; simp [Callback.isRebuild]), f4]
    simp

/-! ## Claims on the countdown and the sequencers -/

theorem tick_stuck (s : State) (t : Interval) (hts : s.timers = [t])
    (hd : t.timeLeft.dec = t.timeLeft) (hz : t.timeLeft.leZero = false) :
    tick s = updateTimerDisplay t.timeLeft s := by
  rw [tick_single s t hts, intervalBody_continue s t hts (by rw [hd]; exact hz), hd]
  congr 1
  cases s
  cases t
  simp_all

/-- A countdown whose decrement is lost by rounding: every tick renders the
same value again, and nothing else changes. -/
theorem ticks_stuck (t : Interval) (hd : t.timeLeft.dec = t.timeLeft)
    (hz : t.timeLeft.leZero = false) (n : Nat) : ∀ s : State, s.timers = [t] →
    (ticks n s).timers = [t] ∧
    (ticks n s).currentPhase = s.currentPhase ∧
    (ticks n s).imageDisplay = s.imageDisplay ∧
    (ticks n s).trace = s.trace ++ List.replicate n (Effect.rendered t.timeLeft) := by
  induction n with
  | zero => intro s hts; exact ⟨hts, rfl, rfl, by simp [ticks]⟩
  | succ n ih =>
    intro s hts
    have hstep := tick_stuck s t hts hd hz
    have h1 : (tick s).timers = [t] := by rw [hstep, updateTimerDisplay_eq]; exact hts
    obtain ⟨i1, i2, i3, i4⟩ := ih (tick s) h1
    show (ticks n (tick s)).timers = [t] ∧ (ticks n (tick s)).currentPhase = s.currentPhase ∧
      (ticks n (tick s)).imageDisplay = s.imageDisplay ∧
      (ticks n (tick s)).trace = s.trace ++ List.replicate (n + 1) (Effect.rendered t.timeLeft)
    refine ⟨i1, ?_, ?_, ?_⟩
    · rw [i2, hstep, updateTimerDisplay_eq]
    · rw [i3, hstep, updateTimerDisplay_eq]
    · rw [i4, hstep, updateTimerDisplay_eq]
      simp [List.replicate_succ]

/-- C1 as stated fails: the duration `2^54`, which a stored view time can
supply, is rendered at once, but the decrement `2^54 - 1` rounds back to
`2^54`; so after a tick the remaining time is still `2^54`, the value rendered
is `2^54` again, and however many ticks go by the interval stays live and the
callback is not called. -/
theorem startCountdown_huge_counterexample :
    parseInt "18014398509481984" = JSNum.int 18014398509481984 ∧
    (ticks 1 (startCountdown (JSNum.int 18014398509481984) Phase.view
      Callback.exerciseViewDone blankDocument)).timers
        = [⟨1, JSNum.int 18014398509481984, Callback.exerciseViewDone⟩] ∧
    (ticks 1 (startCountdown (JSNum.int 18014398509481984) Phase.view
      Callback.exerciseViewDone blankDocument)).trace
        = [Effect.rendered (JSNum.int 18014398509481984),
           Effect.rendered (JSNum.int 18014398509481984)] ∧
    ∀ n, (ticks n (startCountdown (JSNum.int 18014398509481984) Phase.view
        Callback.exerciseViewDone blankDocument)).timers
          = [⟨1, JSNum.int 18014398509481984, Callback.exerciseViewDone⟩] ∧
      (ticks n (startCountdown (JSNum.int 18014398509481984) Phase.view
        Callback.exerciseViewDone blankDocument)).trace.count
          (Effect.expired Callback.exerciseViewDone) = 0 := by
  refine ⟨by decide, by decide, by decide, ?_⟩
  intro n
  obtain ⟨h1, -, -, h4⟩ := ticks_stuck
    ⟨1, JSNum.int 18014398509481984, Callback.exerciseViewDone⟩ (by decide) (by decide) n
    (startCountdown (JSNum.int 18014398509481984) Phase.view Callback.exerciseViewDone
      blankDocument) (by decide)
  refine ⟨h1, ?_⟩
  rw [h4]
  have h0 : (startCountdown (JSNum.int 18014398509481984) Phase.view
      Callback.exerciseViewDone blankDocument).trace
        = [Effect.rendered (JSNum.int 18014398509481984)] := by decide
  rw [h0]
  simp [List.count_replicate]

/-- C1 as amended: for a duration `0 < d ≤ 2^53` and any callback, started in a
state with the timer invariant of reachable states, `startCountdown` renders
`d` at once; after `k < d` ticks the interval is live with remaining time
`d - k`, the label shows `d - k`, the renderings so far are `d, ..., d - k` and
the callback has not been called; the `d`-th tick renders `0`, stops the
interval and calls the callback; and after any number of ticks the callback
has been called once if at least `d` ticks went by and not at all before. -/
theorem startCountdown_counts_down (s : State) (d : Nat) (phase : Phase) (cb : Callback)
    (hd : 0 < d) (hb : d ≤ exactBound) (hs : TimerInv s) :
    (∀ k, k < d →
      (ticks k (startCountdown (JSNum.int d) phase cb s)).timers
        = [⟨s.nextTimerId, JSNum.int ((d : Int) - (k : Int)), cb⟩] ∧
      (ticks k (startCountdown (JSNum.int d) phase cb s)).timerText
        = timerLabel (JSNum.int ((d : Int) - (k : Int))) ∧
      (ticks k (startCountdown (JSNum.int d) phase cb s)).trace
        = s.trace ++ renderedValues d k ∧
      (ticks k (startCountdown (JSNum.int d) phase cb s)).currentPhase = some phase) ∧
    ticks d (startCountdown (JSNum.int d) phase cb s)
      = runCallback cb (expiring { s with timers := [], currentPhase := some phase } cb d) ∧
    (expiring { s with timers := [], currentPhase := some phase } cb d).timers = [] ∧
    (expiring { s with timers := [], currentPhase := some phase } cb d).trace
      = s.trace ++ renderedValues d d ++ [Effect.expired cb] ∧
    ∀ n, (ticks n (startCountdown (JSNum.int d) phase cb s)).trace.count (Effect.expired cb)
      = s.trace.count (Effect.expired cb) + (if n < d then 0 else 1) := by
  have hstart := startCountdown_eq_counting s d phase cb hs
  refine ⟨?_, ?_, rfl, rfl, ?_⟩
  · intro k hk
    rw [hstart, ticks_counting _ cb d hb k hk]
    exact ⟨rfl, rfl, rfl, rfl⟩
  · rw [hstart, ticks_counting_expire _ cb d hb hd]
  · intro n
    by_cases hn : n < d
    · rw [hstart, ticks_counting _ cb d hb n hn]
      simp [counting, hn, count_expired_renderedValues]
    · obtain ⟨m, rfl⟩ : ∃ m, n = d + m := ⟨n - d, by omega⟩
      rw [ticks_add, hstart, ticks_counting_expire _ cb d hb hd,
        ticks_after_expiry cb _ rfl m]
      simp [expiring, hn, count_expired_renderedValues]

/-- C1 as amended, on the blank document with the duration 3. -/
theorem startCountdown_counts_down_witness :
    (ticks 2 (startCountdown (JSNum.int 3) Phase.view Callback.exerciseViewDone
      blankDocument)).timers = [⟨1, JSNum.int 1, Callback.exerciseViewDone⟩] ∧
    (ticks 2 (startCountdown (JSNum.int 3) Phase.view Callback.exerciseViewDone
      blankDocument)).trace = [Effect.rendered (JSNum.int 3), Effect.rendered (JSNum.int 2),
        Effect.rendered (JSNum.int 1)] ∧
    (ticks 7 (startCountdown (JSNum.int 3) Phase.view Callback.exerciseViewDone
      blankDocument)).trace.count (Effect.expired Callback.exerciseViewDone) = 1 :=
  have h := startCountdown_counts_down blankDocument 3 Phase.view Callback.exerciseViewDone
    (by decide) (by decide) (timerInv_of_nil blankDocument rfl)
  ⟨(h.1 2 (by decide)).1, (h.1 2 (by decide)).2.2.1, h.2.2.2.2 7⟩

theorem startExercise_eq_counting (s : State) (d1 : Nat) (hs : TimerInv s)
    (hv : s.viewTime = JSNum.int d1) :
    startExercise s = counting (exerciseViewBase s) Callback.exerciseViewDone d1 0 := by
  have hs2 : TimerInv { s with
      round := incr s.round, nextBtnDisabled := true, imageLoaded := false,
      imageDisplay := "block", instructions := lookInstructions s.viewTime } := hs
  have key := startCountdown_eq_counting _ d1 Phase.view Callback.exerciseViewDone hs2
  rw [← hv] at key
  exact key

theorem runCallback_exerciseViewDone_eq (e : State) (d2 : Nat) (he : e.timers = [])
    (hr : e.rebuildTime = JSNum.int d2) :
    runCallback Callback.exerciseViewDone e
      = counting (rebuildBase e) Callback.exerciseRebuildDone d2 0 := by
  have hs2 : TimerInv { e with imageDisplay := "none", instructions := rebuildInstructions } :=
    timerInv_of_nil _ he
  have key := startCountdown_eq_counting _ d2 Phase.rebuild Callback.exerciseRebuildDone hs2
  rw [← hr] at key
  exact key

theorem runCallback_repeatViewDone_eq (e : State) (d2 : Nat) (he : e.timers = [])
    (hr : e.rebuildTime = JSNum.int d2) :
    runCallback Callback.repeatViewDone e
      = counting (rebuildBase e) Callback.repeatRebuildDone d2 0 := by
  have hs2 : TimerInv { e with imageDisplay := "none", instructions := rebuildInstructions } :=
    timerInv_of_nil _ he
  have key := startCountdown_eq_counting _ d2 Phase.rebuild Callback.repeatRebuildDone hs2
  rw [← hr] at key
  exact key

/-- The bounded cycle in closed form: the states during viewing, during
rebuilding and from the review on. -/
theorem exercise_cycle (s : State) (d1 d2 : Nat) (h1 : 0 < d1) (h2 : 0 < d2)
    (hb1 : d1 ≤ exactBound) (hb2 : d2 ≤ exactBound) (hs : TimerInv s) (hv : s.viewTime = JSNum.int d1) (hr : s.rebuildTime = JSNum.int d2) :
    (∀ k, k < d1 →
      ticks k (startExercise s) = counting (exerciseViewBase s) Callback.exerciseViewDone d1 k) ∧
    (∀ k, k < d2 →
      ticks (d1 + k) (startExercise s)
        = counting (rebuildBase (expiring (exerciseViewBase s) Callback.exerciseViewDone d1))
            Callback.exerciseRebuildDone d2 k) ∧
    (∀ n, d1 + d2 ≤ n →
      ticks n (startExercise s)
        = runCallback Callback.exerciseRebuildDone
            (expiring (rebuildBase (expiring (exerciseViewBase s) Callback.exerciseViewDone d1))
              Callback.exerciseRebuildDone d2)) := by
  have hstart := startExercise_eq_counting s d1 hs hv
  have hmid : ticks d1 (startExercise s)
      = counting (rebuildBase (expiring (exerciseViewBase s) Callback.exerciseViewDone d1))
          Callback.exerciseRebuildDone d2 0 := by
    rw [hstart, ticks_counting_expire _ _ d1 hb1 h1]
    exact runCallback_exerciseViewDone_eq _ d2 rfl hr
  refine ⟨?_, ?_, ?_⟩
  · intro k hk
    rw [hstart, ticks_counting _ _ d1 hb1 k hk]
  · intro k hk
    rw [ticks_add, hmid, ticks_counting _ _ d2 hb2 k hk]
  · intro n hn
    obtain ⟨m, rfl⟩ : ∃ m, n = d1 + (d2 + m) := ⟨n - (d1 + d2), by omega⟩
    rw [ticks_add, hmid, ticks_add, ticks_counting_expire _ _ d2 hb2 h2]
    apply ticks_nil
    exact (runCallback_rebuild_fields Callback.exerciseRebuildDone _ rfl).1

/-- C2 as stated fails: with the stored view time `2^54` and rebuild time 3,
both positive integers, the view countdown loses every decrement to rounding;
after a tick the label still shows `2^54`, and after `2^54` ticks, as after any
number, the phase is still `view` with the image shown. -/
theorem startExercise_huge_counterexample :
    (pageLoad blankDocument ⟨none, some "18014398509481984", some "3"⟩).viewTime
      = JSNum.int 18014398509481984 ∧
    (pageLoad blankDocument ⟨none, some "18014398509481984", some "3"⟩).rebuildTime
      = JSNum.int 3 ∧
    (ticks 1 (startExercise
      (pageLoad blankDocument ⟨none, some "18014398509481984", some "3"⟩))).timerText
        = "Time left: 18014398509481984s" ∧
    (ticks 18014398509481984 (startExercise
      (pageLoad blankDocument ⟨none, some "18014398509481984", some "3"⟩))).currentPhase
        = some Phase.view ∧
    ∀ n, (ticks n (startExercise
        (pageLoad blankDocument ⟨none, some "18014398509481984", some "3"⟩))).currentPhase
          = some Phase.view ∧
      (ticks n (startExercise
        (pageLoad blankDocument ⟨none, some "18014398509481984", some "3"⟩))).imageDisplay
          = "block" := by
  have hall : ∀ n, (ticks n (startExercise
        (pageLoad blankDocument ⟨none, some "18014398509481984", some "3"⟩))).currentPhase
          = some Phase.view ∧
      (ticks n (startExercise
        (pageLoad blankDocument ⟨none, some "18014398509481984", some "3"⟩))).imageDisplay
          = "block" := by
    intro n
    obtain ⟨-, h2, h3, -⟩ := ticks_stuck
      ⟨1, JSNum.int 18014398509481984, Callback.exerciseViewDone⟩ (by decide) (by decide) n
      (startExercise (pageLoad blankDocument ⟨none, some "18014398509481984", some "3"⟩))
      (by decide)
    rw [h2, h3]
    exact ⟨by decide, by decide⟩
  exact ⟨by decide, by decide, by decide, (hall 18014398509481984).1, hall⟩

/-- C2 as amended: with view time `0 < d1 ≤ 2^53` and rebuild time
`0 < d2 ≤ 2^53`, after `startExercise` and with ticks as the only triggers:
for `k < d1` ticks the phase is `view`, the image is shown and the label shows
`d1 - k`; for `d1 + k` ticks with `k < d2` the phase is `rebuild`, the image is
hidden and the label shows `d2 - k`; from `d1 + d2` ticks on no countdown is
live, `currentPhase` is `null`, the image is shown again under the review
instructions, and the history consists of the renderings `d1, ..., 0`, one
call of the view handler, the renderings `d2, ..., 0` and one call of the
rebuild handler. -/
theorem startExercise_phases (s : State) (d1 d2 : Nat) (h1 : 0 < d1) (h2 : 0 < d2)
    (hb1 : d1 ≤ exactBound) (hb2 : d2 ≤ exactBound)
    (hs : TimerInv s) (hv : s.viewTime = JSNum.int d1) (hr : s.rebuildTime = JSNum.int d2) :
    (∀ k, k < d1 →
      (ticks k (startExercise s)).currentPhase = some Phase.view ∧
      (ticks k (startExercise s)).imageDisplay = "block" ∧
      (ticks k (startExercise s)).instructions = lookInstructions (JSNum.int d1) ∧
      (ticks k (startExercise s)).timerText = timerLabel (JSNum.int ((d1 : Int) - (k : Int))) ∧
      (ticks k (startExercise s)).timers
        = [⟨s.nextTimerId, JSNum.int ((d1 : Int) - (k : Int)), Callback.exerciseViewDone⟩] ∧
      (ticks k (startExercise s)).trace = s.trace ++ renderedValues d1 k) ∧
    (∀ k, k < d2 →
      (ticks (d1 + k) (startExercise s)).currentPhase = some Phase.rebuild ∧
      (ticks (d1 + k) (startExercise s)).imageDisplay = "none" ∧
      (ticks (d1 + k) (startExercise s)).instructions = rebuildInstructions ∧
      (ticks (d1 + k) (startExercise s)).timerText
        = timerLabel (JSNum.int ((d2 : Int) - (k : Int))) ∧
      (ticks (d1 + k) (startExercise s)).timers
        = [⟨s.nextTimerId + 1, JSNum.int ((d2 : Int) - (k : Int)),
            Callback.exerciseRebuildDone⟩] ∧
      (ticks (d1 + k) (startExercise s)).trace
        = s.trace ++ renderedValues d1 d1 ++ [Effect.expired Callback.exerciseViewDone]
            ++ renderedValues d2 k) ∧
    (∀ n, d1 + d2 ≤ n →
      (ticks n (startExercise s)).currentPhase = none ∧
      (ticks n (startExercise s)).timers = [] ∧
      (ticks n (startExercise s)).imageDisplay = "block" ∧
      (ticks n (startExercise s)).instructions
        = (if incr s.round < 2 then reviewInstructions else reviewInstructions ++ completeSuffix) ∧
      (ticks n (startExercise s)).timerText = "" ∧
      (ticks n (startExercise s)).trace
        = s.trace ++ renderedValues d1 d1 ++ [Effect.expired Callback.exerciseViewDone]
            ++ renderedValues d2 d2 ++ [Effect.expired Callback.exerciseRebuildDone]) := by
  obtain ⟨c1, c2, c3⟩ := exercise_cycle s d1 d2 h1 h2 hb1 hb2 hs hv hr
  refine ⟨?_, ?_, ?_⟩
  · intro k hk
    rw [c1 k hk]
    simp [counting, exerciseViewBase, hv]
  · intro k hk
    rw [c2 k hk]
    simp [counting, rebuildBase, expiring, exerciseViewBase]
  · intro n hn
    rw [c3 n hn]
    by_cases hround : incr s.round < 2 <;>
      simp [runCallback, counting, rebuildBase, expiring, exerciseViewBase, hround]

/-- C2 as amended, at the durations (5, 3): the history of the nine ticks. -/
theorem startExercise_phases_witness :
    (ticks 9 (startExercise (pageLoad blankDocument ⟨none, some "5", some "3"⟩))).trace
      = [Effect.rendered (JSNum.int 5), Effect.rendered (JSNum.int 4),
         Effect.rendered (JSNum.int 3), Effect.rendered (JSNum.int 2),
         Effect.rendered (JSNum.int 1), Effect.rendered (JSNum.int 0),
         Effect.expired Callback.exerciseViewDone,
         Effect.rendered (JSNum.int 3), Effect.rendered (JSNum.int 2),
         Effect.rendered (JSNum.int 1), Effect.rendered (JSNum.int 0),
         Effect.expired Callback.exerciseRebuildDone] ∧
    (ticks 9 (startExercise (pageLoad blankDocument ⟨none, some "5", some "3"⟩))).instructions
      = reviewInstructions :=
  have h := startExercise_phases (pageLoad blankDocument ⟨none, some "5", some "3"⟩) 5 3
    (by decide) (by decide) (by decide) (by decide) (timerInv_of_nil _ rfl) rfl rfl
  ⟨(h.2.2 9 (by decide)).2.2.2.2.2, (h.2.2 9 (by decide)).2.2.2.1⟩

/-! ## Invariants of the reachable states -/

theorem idsFrom_of_eq (b : Nat) (s s2 : State) (h : IdsFrom b s) (h1 : s2.timers = s.timers)
    (h2 : s2.countdown = s.countdown) (h3 : s2.nextTimerId = s.nextTimerId) : IdsFrom b s2 := by
  unfold IdsFrom TimerInv at *
  rw [h1, h2, h3]
  exact h

theorem idsFrom_startCountdown (b : Nat) (seconds : JSNum) (phase : Phase) (cb : Callback)
    (s : State) (h : IdsFrom b s) : IdsFrom b (startCountdown seconds phase cb s) := by
  obtain ⟨f1, f2, f3, -⟩ := startCountdown_fields seconds phase cb s h.1
  refine ⟨timerInv_of_single _ _ f1 (by rw [f2]) (by rw [f3]; simp), ?_, ?_⟩
  · rw [f3]; have := h.2.1; omega
  · intro u hu
    rw [f1] at hu
    simp only [List.mem_singleton] at hu
    subst hu
    exact h.2.1

theorem idsFrom_runCallback (b : Nat) (cb : Callback) (e : State) (h : IdsFrom b e) :
    IdsFrom b (runCallback cb e) := by
  cases cb with
  | exerciseViewDone =>
    exact idsFrom_startCountdown b _ _ _ _
      (idsFrom_of_eq b e { e with imageDisplay := "none", instructions := rebuildInstructions }
        h rfl rfl rfl)
  | repeatViewDone =>
    exact idsFrom_startCountdown b _ _ _ _
      (idsFrom_of_eq b e { e with imageDisplay := "none", instructions := rebuildInstructions }
        h rfl rfl rfl)
  | exerciseRebuildDone =>
    obtain ⟨r1, r2, r3, -⟩ := runCallback_rebuild_fields Callback.exerciseRebuildDone e rfl
    exact idsFrom_of_eq b e _ h r1 r2 r3
  | repeatRebuildDone =>
    obtain ⟨r1, r2, r3, -⟩ := runCallback_rebuild_fields Callback.repeatRebuildDone e rfl
    exact idsFrom_of_eq b e _ h r1 r2 r3

theorem idsFrom_intervalBody (b : Nat) (s : State) (t : Interval) (h : IdsFrom b s)
    (hts : s.timers = [t]) (hc : s.countdown = some t.id) : IdsFrom b (intervalBody t s) := by
  have hi : t.id < s.nextTimerId := h.1.2.2 t (by rw [hts]; simp)
  have hb : b ≤ t.id := h.2.2 t (by rw [hts]; simp)
  cases hz : t.timeLeft.dec.leZero with
  | false =>
    obtain ⟨f1, f2, f3, -⟩ := intervalBody_continue_fields s t hts hz
    refine ⟨timerInv_of_single _ _ f1 (by rw [f2, hc]) (by rw [f3]; exact hi), ?_, ?_⟩
    · rw [f3]; exact h.2.1
    · intro u hu
      rw [f1] at hu
      simp only [List.mem_singleton] at hu
      subst hu
      exact hb
  | true =>
    obtain ⟨e, he, e1, e2, e3, -⟩ := intervalBody_expire_fields s t hts hc hz
    rw [he]
    apply idsFrom_runCallback
    refine ⟨timerInv_of_nil e e1, ?_, ?_⟩
    · rw [e3]; exact h.2.1
    · intro u hu
      rw [e1] at hu
      simp at hu

theorem idsFrom_fireInterval (b id : Nat) (s : State) (h : IdsFrom b s) :
    IdsFrom b (fireInterval id s) := by
  rcases fireInterval_cases id s h.1 with h0 | ⟨t, ht, hc, -, heq⟩
  · rw [h0]; exact h
  · rw [heq]; exact idsFrom_intervalBody b s t h ht hc

theorem idsFrom_startExercise (b : Nat) (s : State) (h : IdsFrom b s) :
    IdsFrom b (startExercise s) :=
  idsFrom_startCountdown b _ _ _ _
    (idsFrom_of_eq b s
      { s with
        round := incr s.round, nextBtnDisabled := true, imageLoaded := false
        imageDisplay := "block", instructions := lookInstructions s.viewTime }
      h rfl rfl rfl)

theorem idsFrom_startInfiniteRepeat (b : Nat) (s : State) (h : IdsFrom b s) :
    IdsFrom b (startInfiniteRepeat s) :=
  idsFrom_startCountdown b _ _ _ _
    (idsFrom_of_eq b s
      { s with
        repeatBtnDisabled := true, imageLoaded := false
        imageDisplay := "block", instructions := lookInstructions s.viewTime }
      h rfl rfl rfl)

theorem idsFrom_step (b : Nat) (s : State) (ev : Event) (h : IdsFrom b s) :
    IdsFrom b (step s ev) := by
  cases ev with
  | startClick =>
    exact idsFrom_startExercise b _
      (idsFrom_of_eq b s { s with round := 0, startBtnText := "Start", nextBtnDisabled := false }
        h rfl rfl rfl)
  | nextClick =>
    show IdsFrom b (if s.nextBtnDisabled = true then s else startExercise s)
    split
    · exact h
    · exact idsFrom_startExercise b s h
  | repeatClick =>
    show IdsFrom b (if s.repeatBtnDisabled = true then s else startInfiniteRepeat s)
    split
    · exact h
    · exact idsFrom_startInfiniteRepeat b s h
  | tick id => exact idsFrom_fireInterval b id s h

theorem idsFrom_run (b : Nat) (evs : List Event) : ∀ s : State, IdsFrom b s →
    IdsFrom b (run s evs) := by
  induction evs with
  | nil => intro s h; exact h
  | cons ev evs ih => intro s h; exact ih (step s ev) (idsFrom_step b s ev h)

theorem pageLoad_timers (document : State) (st : Storage) :
    (pageLoad document st).timers = [] := by
  have h1 : ∀ s : State, (initTheme s).timers = s.timers := by
    intro s
    by_cases h : s.storage.theme = some "dark"
    · rw [initTheme_dark s h]
    · rw [initTheme_light s h]
  have h2 : ∀ s : State, (initSettings s).timers = s.timers := by
    intro s
    unfold initSettings updateTimes
    by_cases h1 : truthy s.storage.viewTime = true <;>
      by_cases h2 : truthy s.storage.rebuildTime = true <;> simp [h1, h2]
  show (initSettings (initTheme (scriptStart document st))).timers = []
  rw [h2, h1]
  rfl

theorem fireInterval_of_absent (id : Nat) (s : State) (h : ∀ u ∈ s.timers, u.id ≠ id) :
    fireInterval id s = s := by
  unfold fireInterval
  have : s.timers.find? (fun t => decide (t.id = id)) = none := by
    rw [List.find?_eq_none]
    intro u hu
    simpa using h u hu
  rw [this]

/-- C3: in every state reached from a page load by clicks on the three buttons
and firings of intervals, in any order, at most one interval is live and the
global `countdown` holds its id; a call of `startCountdown` in such a state
leaves exactly one live interval, the new one, and whatever triggers follow,
an interval that was live before the call is never live again, so that firing
it does nothing and its callback is not called. -/
theorem one_countdown_live (document : State) (storage : Storage) (evs : List Event) :
    (run (pageLoad document storage) evs).timers.length ≤ 1 ∧
    (∀ t ∈ (run (pageLoad document storage) evs).timers,
      (run (pageLoad document storage) evs).countdown = some t.id) ∧
    ∀ (seconds : JSNum) (phase : Phase) (cb : Callback) (later : List Event),
      (startCountdown seconds phase cb (run (pageLoad document storage) evs)).timers
        = [⟨(run (pageLoad document storage) evs).nextTimerId, seconds, cb⟩] ∧
      (run (startCountdown seconds phase cb (run (pageLoad document storage) evs))
        later).timers.length ≤ 1 ∧
      ∀ t ∈ (run (pageLoad document storage) evs).timers,
        (∀ u ∈ (run (startCountdown seconds phase cb (run (pageLoad document storage) evs))
          later).timers, u.id ≠ t.id) ∧
        fireInterval t.id
            (run (startCountdown seconds phase cb (run (pageLoad document storage) evs)) later)
          = run (startCountdown seconds phase cb (run (pageLoad document storage) evs)) later := by
  have h0 : IdsFrom 0 (pageLoad document storage) := by
    refine ⟨timerInv_of_nil _ (pageLoad_timers document storage), Nat.zero_le _, ?_⟩
    intro u _
    exact Nat.zero_le _
  have hrun := idsFrom_run 0 evs _ h0
  generalize run (pageLoad document storage) evs = s at hrun
  have hinv : TimerInv s := hrun.1
  refine ⟨hinv.1, hinv.2.1, ?_⟩
  intro seconds phase cb later
  obtain ⟨f1, f2, f3, -⟩ := startCountdown_fields seconds phase cb s hinv
  have hnew : IdsFrom s.nextTimerId (startCountdown seconds phase cb s) := by
    refine ⟨timerInv_of_single _ _ f1 (by rw [f2]) (by rw [f3]; simp), ?_, ?_⟩
    · rw [f3]; omega
    · intro u hu
      rw [f1] at hu
      simp only [List.mem_singleton] at hu
      subst hu
      exact Nat.le_refl _
  have hlater := idsFrom_run s.nextTimerId later _ hnew
  refine ⟨f1, hlater.1.1, ?_⟩
  intro t ht
  have hlt : t.id < s.nextTimerId := hinv.2.2 t ht
  have hne : ∀ u ∈ (run (startCountdown seconds phase cb s) later).timers, u.id ≠ t.id := by
    intro u hu
    have := hlater.2.2 u hu
    omega
  exact ⟨hne, fireInterval_of_absent t.id _ hne⟩

/-! ## Round counter and repeat guard -/

/-- The state from the review of a bounded cycle on, in terms of the state in
which `startExercise` was called. -/
theorem exercise_cycle_final (s : State) (d1 d2 : Nat) (h1 : 0 < d1) (h2 : 0 < d2)
    (hb1 : d1 ≤ exactBound) (hb2 : d2 ≤ exactBound) (hs : TimerInv s) (hv : s.viewTime = JSNum.int d1) (hr : s.rebuildTime = JSNum.int d2) :
    (ticks (d1 + d2) (startExercise s)).round = incr s.round ∧
    (ticks (d1 + d2) (startExercise s)).timers = [] ∧
    (ticks (d1 + d2) (startExercise s)).viewTime = JSNum.int d1 ∧
    (ticks (d1 + d2) (startExercise s)).rebuildTime = JSNum.int d2 ∧
    (ticks (d1 + d2) (startExercise s)).nextBtnDisabled = decide (¬ incr s.round < 2) ∧
    (ticks (d1 + d2) (startExercise s)).startBtnText
      = (if incr s.round < 2 then s.startBtnText else "Restart") ∧
    (ticks (d1 + d2) (startExercise s)).instructions
      = (if incr s.round < 2 then reviewInstructions else reviewInstructions ++ completeSuffix) := by
  obtain ⟨-, -, c3⟩ := exercise_cycle s d1 d2 h1 h2 hb1 hb2 hs hv hr
  rw [c3 (d1 + d2) (Nat.le_refl _)]
  by_cases hround : incr s.round < 2 <;>
    simp [runCallback, rebuildBase, expiring, exerciseViewBase, hround, hv, hr]

theorem exercise_cycle_nextBtn (s : State) (d1 d2 : Nat) (h1 : 0 < d1) (h2 : 0 < d2)
    (hb1 : d1 ≤ exactBound) (hb2 : d2 ≤ exactBound) (hs : TimerInv s) (hv : s.viewTime = JSNum.int d1) (hr : s.rebuildTime = JSNum.int d2)
    (k : Nat) (hk : k < d1 + d2) :
    (ticks k (startExercise s)).nextBtnDisabled = true := by
  obtain ⟨c1, c2, -⟩ := exercise_cycle s d1 d2 h1 h2 hb1 hb2 hs hv hr
  by_cases hlt : k < d1
  · rw [c1 k hlt]; rfl
  · obtain ⟨j, rfl⟩ : ∃ j, k = d1 + j := ⟨k - d1, by omega⟩
    rw [c2 j (by omega)]; rfl

/-- A click on the repeat button, a firing of an interval, or a click on the
disabled next button, in a state whose live countdown belongs to the repeat
sequencer: the countdown still does, `round` and the next button are
untouched, and the repeat guard is kept. -/
theorem step_keeps_repeat (s : State) (ev : Event) (hs : TimerInv s)
    (hk : ∀ t ∈ s.timers, t.callback.isRepeat = true)
    (hev : ev ≠ Event.startClick) (hnext : ev = Event.nextClick → s.nextBtnDisabled = true) :
    TimerInv (step s ev) ∧
    (∀ t ∈ (step s ev).timers, t.callback.isRepeat = true) ∧
    (step s ev).round = s.round ∧
    (step s ev).nextBtnDisabled = s.nextBtnDisabled ∧
    (RepeatGuard s → RepeatGuard (step s ev)) := by
  have hids : IdsFrom 0 (step s ev) :=
    idsFrom_step 0 s ev ⟨hs, Nat.zero_le _, fun _ _ => Nat.zero_le _⟩
  refine ⟨hids.1, ?_⟩
  cases ev with
  | startClick => exact absurd rfl hev
  | nextClick =>
    have hd := hnext rfl
    have : step s Event.nextClick = s := by
      show (if s.nextBtnDisabled = true then s else startExercise s) = s
      rw [if_pos hd]
    rw [this]
    exact ⟨hk, rfl, rfl, fun hg => hg⟩
  | repeatClick =>
    by_cases hd : s.repeatBtnDisabled = true
    · have : step s Event.repeatClick = s := by
        show (if s.repeatBtnDisabled = true then s else startInfiniteRepeat s) = s
        rw [if_pos hd]
      rw [this]
      exact ⟨hk, rfl, rfl, fun hg => hg⟩
    · have hstep : step s Event.repeatClick = startInfiniteRepeat s := by
        show (if s.repeatBtnDisabled = true then s else startInfiniteRepeat s) = _
        rw [if_neg hd]
      have hs2 : TimerInv { s with
          repeatBtnDisabled := true, imageLoaded := false
          imageDisplay := "block", instructions := lookInstructions s.viewTime } := hs
      obtain ⟨f1, -, -, -, f5, f6, f7, f8⟩ := startCountdown_fields s.viewTime Phase.view
        Callback.repeatViewDone _ hs2
      rw [hstep]
      refine ⟨?_, f5, f6, ?_⟩
      · intro t ht
        have ht2 : t ∈ [(⟨s.nextTimerId, s.viewTime, Callback.repeatViewDone⟩ : Interval)] :=
          f1 ▸ ht
        simp only [List.mem_singleton] at ht2
        subst ht2
        rfl
      · intro _
        right
        refine ⟨?_, f7, ?_⟩
        · intro hnil
          have := f1.symm.trans hnil
          simp at this
        · intro hnone
          have := f8.symm.trans hnone
          simp at this
  | tick id =>
    show (∀ t ∈ (fireInterval id s).timers, t.callback.isRepeat = true) ∧
      (fireInterval id s).round = s.round ∧
      (fireInterval id s).nextBtnDisabled = s.nextBtnDisabled ∧
      (RepeatGuard s → RepeatGuard (fireInterval id s))
    rcases fireInterval_cases id s hs with h0 | ⟨t, ht, hc, -, heq⟩
    · rw [h0]; exact ⟨hk, rfl, rfl, fun hg => hg⟩
    · have hrep : t.callback.isRepeat = true := hk t (by rw [ht]; simp)
      have hguard : RepeatGuard s → s.repeatBtnDisabled = true := by
        intro hg
        rcases hg with ⟨g1, -, -⟩ | ⟨-, g2, -⟩
        · rw [ht] at g1; simp at g1
        · exact g2
      have hguard2 : RepeatGuard s → s.currentPhase ≠ none := by
        intro hg
        rcases hg with ⟨g1, -, -⟩ | ⟨-, -, g3⟩
        · rw [ht] at g1; simp at g1
        · exact g3
      rw [heq]
      cases hz : t.timeLeft.dec.leZero with
      | false =>
        obtain ⟨f1, -, -, -, f5, f6, f7, f8⟩ := intervalBody_continue_fields s t ht hz
        refine ⟨?_, f5, f6, ?_⟩
        · intro u hu
          rw [f1] at hu
          simp only [List.mem_singleton] at hu
          subst hu
          exact hrep
        · intro hg
          right
          refine ⟨by rw [f1]; simp, by rw [f7]; exact hguard hg, by rw [f8]; exact hguard2 hg⟩
      | true =>
        obtain ⟨e, he, e1, -, -, -, e5, e6, e7, e8⟩ := intervalBody_expire_fields s t ht hc hz
        rw [he]
        cases hcb : t.callback with
        | exerciseViewDone => rw [hcb] at hrep; exact absurd hrep (by decide)
        | exerciseRebuildDone => rw [hcb] at hrep; exact absurd hrep (by decide)
        | repeatViewDone =>
          have hs2 : TimerInv { e with
              imageDisplay := "none", instructions := rebuildInstructions } :=
            timerInv_of_nil _ e1
          obtain ⟨f1, -, -, -, f5, f6, f7, f8⟩ := startCountdown_fields e.rebuildTime
            Phase.rebuild Callback.repeatRebuildDone _ hs2
          have hrun : runCallback Callback.repeatViewDone e
              = startCountdown e.rebuildTime Phase.rebuild Callback.repeatRebuildDone
                  { e with imageDisplay := "none", instructions := rebuildInstructions } := rfl
          rw [hrun]
          refine ⟨?_, f5.trans e5, f6.trans e6, ?_⟩
          · intro u hu
            have hu2 : u ∈ [(⟨e.nextTimerId, e.rebuildTime, Callback.repeatRebuildDone⟩ :
                Interval)] := f1 ▸ hu
            simp only [List.mem_singleton] at hu2
            subst hu2
            rfl
          · intro hg
            right
            refine ⟨?_, (f7.trans e7).trans (hguard hg), ?_⟩
            · intro hnil
              have := f1.symm.trans hnil
              simp at this
            · intro hnone
              have := f8.symm.trans hnone
              simp at this
        | repeatRebuildDone =>
          have r1 : (runCallback Callback.repeatRebuildDone e).timers = e.timers := rfl
          have r2 : (runCallback Callback.repeatRebuildDone e).round = e.round := rfl
          have r3 : (runCallback Callback.repeatRebuildDone e).nextBtnDisabled
              = e.nextBtnDisabled := rfl
          have r4 : (runCallback Callback.repeatRebuildDone e).repeatBtnDisabled = false := rfl
          have r5 : (runCallback Callback.repeatRebuildDone e).currentPhase
              = e.currentPhase := rfl
          refine ⟨?_, r2.trans e5, r3.trans e6, ?_⟩
          · intro u hu
            rw [r1, e1] at hu
            simp at hu
          · intro _
            left
            exact ⟨r1.trans e1, r4, r5.trans e8⟩

theorem startCountdown_frame (seconds : JSNum) (phase : Phase) (cb : Callback) (s : State) :
    (startCountdown seconds phase cb s).round = s.round ∧
    (startCountdown seconds phase cb s).startBtnText = s.startBtnText ∧
    (startCountdown seconds phase cb s).repeatBtnDisabled = s.repeatBtnDisabled := by
  unfold startCountdown clearInterval
  cases s.countdown <;> simp [updateTimerDisplay_eq]

theorem run_keeps_round (evs : List Event) : ∀ s : State, TimerInv s →
    (∀ t ∈ s.timers, t.callback.isRepeat = true) → s.nextBtnDisabled = true →
    (∀ ev ∈ evs, ev ≠ Event.startClick) →
    (run s evs).round = s.round ∧ (run s evs).nextBtnDisabled = true := by
  induction evs with
  | nil => intro s _ _ hn _; exact ⟨rfl, hn⟩
  | cons ev evs ih =>
    intro s hs hk hn hevs
    obtain ⟨k1, k2, k3, k4, -⟩ := step_keeps_repeat s ev hs hk
      (hevs ev (by simp)) (fun _ => hn)
    obtain ⟨i1, i2⟩ := ih (step s ev) k1 k2 (by rw [k4]; exact hn)
      (fun e he => hevs e (by simp [he]))
    exact ⟨i1.trans k3, i2⟩

theorem run_keeps_guard (evs : List Event) : ∀ s : State, TimerInv s →
    (∀ t ∈ s.timers, t.callback.isRepeat = true) → RepeatGuard s →
    (∀ ev ∈ evs, ev = Event.repeatClick ∨ ∃ id, ev = Event.tick id) →
    (run s evs).round = s.round ∧ RepeatGuard (run s evs) := by
  induction evs with
  | nil => intro s _ _ hg _; exact ⟨rfl, hg⟩
  | cons ev evs ih =>
    intro s hs hk hg hevs
    have hev := hevs ev (by simp)
    have hne : ev ≠ Event.startClick := by
      rcases hev with h | ⟨id, h⟩ <;> rw [h] <;> intro hc <;> cases hc
    have hnn : ev = Event.nextClick → s.nextBtnDisabled = true := by
      intro hc
      rcases hev with h | ⟨id, h⟩ <;> rw [h] at hc <;> cases hc
    obtain ⟨k1, k2, k3, -, k5⟩ := step_keeps_repeat s ev hs hk hne hnn
    obtain ⟨i1, i2⟩ := ih (step s ev) k1 k2 (k5 hg) (fun e he => hevs e (by simp [he]))
    exact ⟨i1.trans k3, i2⟩

theorem startInfiniteRepeat_eq_counting (s : State) (d1 : Nat) (hs : TimerInv s)
    (hv : s.viewTime = JSNum.int d1) :
    startInfiniteRepeat s = counting (repeatViewBase s) Callback.repeatViewDone d1 0 := by
  have hs2 : TimerInv { s with
      repeatBtnDisabled := true, imageLoaded := false,
      imageDisplay := "block", instructions := lookInstructions s.viewTime } := hs
  have key := startCountdown_eq_counting _ d1 Phase.view Callback.repeatViewDone hs2
  rw [← hv] at key
  exact key

/-- The repeat cycle in closed form: the states during viewing, during
rebuilding and from the review on. -/
theorem repeat_cycle (s : State) (d1 d2 : Nat) (h1 : 0 < d1) (h2 : 0 < d2)
    (hb1 : d1 ≤ exactBound) (hb2 : d2 ≤ exactBound) (hs : TimerInv s) (hv : s.viewTime = JSNum.int d1) (hr : s.rebuildTime = JSNum.int d2) :
    (∀ k, k < d1 →
      ticks k (startInfiniteRepeat s)
        = counting (repeatViewBase s) Callback.repeatViewDone d1 k) ∧
    (∀ k, k < d2 →
      ticks (d1 + k) (startInfiniteRepeat s)
        = counting (rebuildBase (expiring (repeatViewBase s) Callback.repeatViewDone d1))
            Callback.repeatRebuildDone d2 k) ∧
    (∀ n, d1 + d2 ≤ n →
      ticks n (startInfiniteRepeat s)
        = runCallback Callback.repeatRebuildDone
            (expiring (rebuildBase (expiring (repeatViewBase s) Callback.repeatViewDone d1))
              Callback.repeatRebuildDone d2)) := by
  have hstart := startInfiniteRepeat_eq_counting s d1 hs hv
  have hmid : ticks d1 (startInfiniteRepeat s)
      = counting (rebuildBase (expiring (repeatViewBase s) Callback.repeatViewDone d1))
          Callback.repeatRebuildDone d2 0 := by
    rw [hstart, ticks_counting_expire _ _ d1 hb1 h1]
    exact runCallback_repeatViewDone_eq _ d2 rfl hr
  refine ⟨?_, ?_, ?_⟩
  · intro k hk
    rw [hstart, ticks_counting _ _ d1 hb1 k hk]
  · intro k hk
    rw [ticks_add, hmid, ticks_counting _ _ d2 hb2 k hk]
  · intro n hn
    obtain ⟨m, rfl⟩ : ∃ m, n = d1 + (d2 + m) := ⟨n - (d1 + d2), by omega⟩
    rw [ticks_add, hmid, ticks_add, ticks_counting_expire _ _ d2 hb2 h2]
    apply ticks_nil
    exact (runCallback_rebuild_fields Callback.repeatRebuildDone _ rfl).1

/-- C4: a click on the start button sets `round` to 1 whatever it was; with
durations `0 < d1, d2 ≤ 2^53`, so that the countdowns expire after `d1` and
`d2` ticks, the next button is disabled during the cycle and enabled when the
rebuild countdown of the first cycle expires, with `round` 1; the cycle begun
by the next button sets `round` to 2, and when it is over the completion text
is shown, the next button is disabled, so that a click on it does nothing, and
under all triggers other than a click on the start button `round` stays 2 and
the next button stays disabled. -/
theorem round_counter (s : State) (d1 d2 : Nat) (h1 : 0 < d1) (h2 : 0 < d2)
    (hb1 : d1 ≤ exactBound) (hb2 : d2 ≤ exactBound)
    (hs : TimerInv s) (hv : s.viewTime = JSNum.int d1) (hr : s.rebuildTime = JSNum.int d2) :
    (step s Event.startClick).round = 1 ∧
    (∀ k, k < d1 + d2 → (ticks k (step s Event.startClick)).nextBtnDisabled = true) ∧
    (firstCycleDone s d1 d2).round = 1 ∧
    (firstCycleDone s d1 d2).nextBtnDisabled = false ∧
    (step (firstCycleDone s d1 d2) Event.nextClick).round = 2 ∧
    (secondCycleDone s d1 d2).round = 2 ∧
    (secondCycleDone s d1 d2).instructions
      = "Open your eyes. Notice what you missed.<br><br><strong>Exercise complete.</strong>" ∧
    (secondCycleDone s d1 d2).nextBtnDisabled = true ∧
    (secondCycleDone s d1 d2).timers = [] ∧
    step (secondCycleDone s d1 d2) Event.nextClick = secondCycleDone s d1 d2 ∧
    ∀ evs : List Event, (∀ ev ∈ evs, ev ≠ Event.startClick) →
      (run (secondCycleDone s d1 d2) evs).round = 2 ∧
      (run (secondCycleDone s d1 d2) evs).nextBtnDisabled = true := by
  have hs0 : TimerInv { s with round := 0, startBtnText := "Start", nextBtnDisabled := false } :=
    hs
  have hstep : step s Event.startClick
      = startExercise { s with round := 0, startBtnText := "Start", nextBtnDisabled := false } :=
    rfl
  obtain ⟨a1, a2, a3, a4, a5, -, -⟩ := exercise_cycle_final _ d1 d2 h1 h2 hb1 hb2 hs0 hv hr
  have hnb := exercise_cycle_nextBtn _ d1 d2 h1 h2 hb1 hb2 hs0 hv hr
  rw [← hstep] at a1 a2 a3 a4 a5 hnb
  have b1 : (firstCycleDone s d1 d2).round = 1 := a1
  have b2 : (firstCycleDone s d1 d2).timers = [] := a2
  have b5 : (firstCycleDone s d1 d2).nextBtnDisabled = false := by
    have : (firstCycleDone s d1 d2).nextBtnDisabled = decide (¬ (incr 0 < 2)) := a5
    rw [this]; rfl
  have hnext : step (firstCycleDone s d1 d2) Event.nextClick
      = startExercise (firstCycleDone s d1 d2) := by
    show (if (firstCycleDone s d1 d2).nextBtnDisabled = true then firstCycleDone s d1 d2
      else startExercise (firstCycleDone s d1 d2)) = _
    rw [b5]; rfl
  have hinv1 : TimerInv (firstCycleDone s d1 d2) := timerInv_of_nil _ b2
  obtain ⟨c1, c2, -, -, c5, -, c7⟩ :=
    exercise_cycle_final (firstCycleDone s d1 d2) d1 d2 h1 h2 hb1 hb2 hinv1 a3 a4
  rw [← hnext] at c1 c2 c5 c7
  have e1 : (secondCycleDone s d1 d2).round = 2 := by
    have : (secondCycleDone s d1 d2).round = incr (firstCycleDone s d1 d2).round := c1
    rw [this, b1]
    decide
  have e2 : (secondCycleDone s d1 d2).timers = [] := c2
  have e5 : (secondCycleDone s d1 d2).nextBtnDisabled = true := by
    have : (secondCycleDone s d1 d2).nextBtnDisabled
        = decide (¬ (incr (firstCycleDone s d1 d2).round < 2)) := c5
    rw [this, b1]; rfl
  have e7 : (secondCycleDone s d1 d2).instructions
      = "Open your eyes. Notice what you missed.<br><br><strong>Exercise complete.</strong>" := by
    have : (secondCycleDone s d1 d2).instructions
        = (if incr (firstCycleDone s d1 d2).round < 2 then reviewInstructions
            else reviewInstructions ++ completeSuffix) := c7
    rw [this, b1]; decide
  refine ⟨?_, hnb, b1, b5, ?_, e1, e7, e5, e2, ?_, ?_⟩
  · rw [hstep]
    exact (startCountdown_frame _ _ _ _).1
  · rw [hnext]
    have := (startCountdown_frame (firstCycleDone s d1 d2).viewTime Phase.view
      Callback.exerciseViewDone
      { firstCycleDone s d1 d2 with
        round := incr (firstCycleDone s d1 d2).round, nextBtnDisabled := true
        imageLoaded := false, imageDisplay := "block"
        instructions := lookInstructions (firstCycleDone s d1 d2).viewTime }).1
    have h3 : (startExercise (firstCycleDone s d1 d2)).round
        = incr (firstCycleDone s d1 d2).round := this
    rw [h3, b1]
    decide
  · show (if (secondCycleDone s d1 d2).nextBtnDisabled = true then secondCycleDone s d1 d2
      else startExercise (secondCycleDone s d1 d2)) = _
    rw [e5]; rfl
  · intro evs hevs
    obtain ⟨r1, r2⟩ := run_keeps_round evs (secondCycleDone s d1 d2) (timerInv_of_nil _ e2)
      (by rw [e2]; intro t ht; simp at ht) e5 hevs
    exact ⟨r1.trans e1, r2⟩

/-- C4 on the page with durations of one second. -/
theorem round_counter_witness :
    (step quickPage Event.startClick).round = 1 ∧
    (firstCycleDone quickPage 1 1).nextBtnDisabled = false ∧
    (secondCycleDone quickPage 1 1).round = 2 ∧
    (secondCycleDone quickPage 1 1).nextBtnDisabled = true ∧
    (run (secondCycleDone quickPage 1 1)
      [Event.nextClick, Event.repeatClick, Event.tick 5, Event.nextClick]).round = 2 :=
  have h := round_counter quickPage 1 1 (by decide) (by decide) (by decide) (by decide)
    (timerInv_of_nil quickPage rfl) rfl rfl
  ⟨h.1, h.2.2.2.1, h.2.2.2.2.2.1, h.2.2.2.2.2.2.2.1,
    (h.2.2.2.2.2.2.2.2.2.2
      [Event.nextClick, Event.repeatClick, Event.tick 5, Event.nextClick] (by decide)).1⟩

/-- C5 as stated fails: when the rebuild countdown of the second cycle has
expired, with `round` 2 and the completion text shown, the label of the start
button is `Restart`, not the label `Start` it carried when the sequence was
started. -/
theorem completion_label_counterexample :
    (step quickPage Event.startClick).startBtnText = "Start" ∧
    (run quickPage [Event.startClick, Event.tick 1, Event.tick 2, Event.nextClick,
      Event.tick 3, Event.tick 4]).round = 2 ∧
    (run quickPage [Event.startClick, Event.tick 1, Event.tick 2, Event.nextClick,
      Event.tick 3, Event.tick 4]).instructions = reviewInstructions ++ completeSuffix ∧
    (run quickPage [Event.startClick, Event.tick 1, Event.tick 2, Event.nextClick,
      Event.tick 3, Event.tick 4]).startBtnText = "Restart" ∧
    (run quickPage [Event.startClick, Event.tick 1, Event.tick 2, Event.nextClick,
      Event.tick 3, Event.tick 4]).startBtnText ≠ "Start" := by
  decide

/-- C5 as amended: when the rebuild countdown of a bounded cycle expires with
`round` at least 2, the completion text is shown and the label of the start
button becomes `Restart`; a click on the start button sets the label to
`Start`. -/
theorem completion_sets_restart (s : State) (t : Interval) (hts : s.timers = [t])
    (hc : s.countdown = some t.id) (hcb : t.callback = Callback.exerciseRebuildDone)
    (hz : t.timeLeft.dec.leZero = true) (hround : 2 ≤ s.round) :
    (tick s).instructions = reviewInstructions ++ completeSuffix ∧
    (tick s).startBtnText = "Restart" ∧
    (tick s).timers = [] ∧
    (tick s).round = s.round ∧
    ∀ x : State, (step x Event.startClick).startBtnText = "Start" := by
  have hnot : ¬ s.round < 2 := by omega
  rw [tick_single s t hts, intervalBody_expire s t hts hc hz, hcb]
  refine ⟨?_, ?_, ?_, ?_, ?_⟩
  · simp [runCallback, updateTimerDisplay_eq, hnot]
  · simp [runCallback, updateTimerDisplay_eq, hnot]
  · simp [runCallback, updateTimerDisplay_eq, hnot]
  · simp [runCallback, updateTimerDisplay_eq, hnot]
  · intro x
    exact (startCountdown_frame _ _ _ _).2.1

/-- C5 as amended, on the page with durations of one second, at the last tick
of the second cycle. -/
theorem completion_sets_restart_witness :
    (tick (run quickPage [Event.startClick, Event.tick 1, Event.tick 2, Event.nextClick,
      Event.tick 3])).startBtnText = "Restart" ∧
    (step (tick (run quickPage [Event.startClick, Event.tick 1, Event.tick 2, Event.nextClick,
      Event.tick 3])) Event.startClick).startBtnText = "Start" :=
  have h := completion_sets_restart
    (run quickPage [Event.startClick, Event.tick 1, Event.tick 2, Event.nextClick, Event.tick 3])
    ⟨4, JSNum.int 1, Callback.exerciseRebuildDone⟩ (by decide) (by decide) rfl (by decide)
    (by decide)
  ⟨h.2.1, h.2.2.2.2 _⟩

/-- C6 as stated fails: after a click on the start button a view countdown is
running while the repeat button is enabled; and after a click on the repeat
button, a click on the start button and the two ticks of the bounded cycle, no
countdown is running while the repeat button is disabled. -/
theorem repeat_guard_counterexample :
    (run quickPage [Event.startClick]).repeatBtnDisabled = false ∧
    (run quickPage [Event.startClick]).currentPhase = some Phase.view ∧
    (run quickPage [Event.startClick]).timers
      = [⟨1, JSNum.int 1, Callback.exerciseViewDone⟩] ∧
    (run quickPage [Event.repeatClick, Event.startClick, Event.tick 2,
      Event.tick 3]).repeatBtnDisabled = true ∧
    (run quickPage [Event.repeatClick, Event.startClick, Event.tick 2,
      Event.tick 3]).currentPhase = none ∧
    (run quickPage [Event.repeatClick, Event.startClick, Event.tick 2,
      Event.tick 3]).timers = [] ∧
    (run quickPage [Event.repeatClick, Event.startClick, Event.tick 2,
      Event.tick 3]).instructions = reviewInstructions := by
  decide

theorem startExercise_fields (s : State) (hs : TimerInv s) :
    (startExercise s).timers = [⟨s.nextTimerId, s.viewTime, Callback.exerciseViewDone⟩] ∧
    (startExercise s).repeatBtnDisabled = s.repeatBtnDisabled := by
  have hs2 : TimerInv { s with
      round := incr s.round, nextBtnDisabled := true, imageLoaded := false,
      imageDisplay := "block", instructions := lookInstructions s.viewTime } := hs
  obtain ⟨f1, -, -, -, -, -, f7, -⟩ := startCountdown_fields s.viewTime Phase.view
    Callback.exerciseViewDone _ hs2
  exact ⟨f1, f7⟩

theorem runCallback_exerciseRebuildDone_repeatBtn (e : State) :
    (runCallback Callback.exerciseRebuildDone e).repeatBtnDisabled = e.repeatBtnDisabled := by
  unfold runCallback
  by_cases hr : e.round < 2 <;> simp [hr]

/-- Under each of the four triggers: while a countdown of the repeat sequencer
is live the repeat button is disabled. -/
theorem step_repeat_live (s : State) (ev : Event) (hs : TimerInv s)
    (hg : ∀ t ∈ s.timers, t.callback.isRepeat = true → s.repeatBtnDisabled = true) :
    ∀ t ∈ (step s ev).timers, t.callback.isRepeat = true →
      (step s ev).repeatBtnDisabled = true := by
  have hex : ∀ x : State, TimerInv x →
      ∀ t ∈ (startExercise x).timers, t.callback.isRepeat = true →
        (startExercise x).repeatBtnDisabled = true := by
    intro x hx t ht hrep
    rw [(startExercise_fields x hx).1] at ht
    simp only [List.mem_singleton] at ht
    subst ht
    exact Bool.noConfusion (show false = true from hrep)
  cases ev with
  | startClick =>
    exact hex { s with round := 0, startBtnText := "Start", nextBtnDisabled := false } hs
  | nextClick =>
    show ∀ t ∈ (if s.nextBtnDisabled = true then s else startExercise s).timers,
      t.callback.isRepeat = true →
        (if s.nextBtnDisabled = true then s else startExercise s).repeatBtnDisabled = true
    split
    · exact hg
    · exact hex s hs
  | repeatClick =>
    show ∀ t ∈ (if s.repeatBtnDisabled = true then s else startInfiniteRepeat s).timers,
      t.callback.isRepeat = true →
        (if s.repeatBtnDisabled = true then s else startInfiniteRepeat s).repeatBtnDisabled
          = true
    split
    · exact hg
    · intro t _ _
      exact (startCountdown_frame _ _ _ _).2.2
  | tick id =>
    show ∀ t ∈ (fireInterval id s).timers, t.callback.isRepeat = true →
      (fireInterval id s).repeatBtnDisabled = true
    rcases fireInterval_cases id s hs with h0 | ⟨t, ht, hc, -, heq⟩
    · rw [h0]; exact hg
    · rw [heq]
      cases hz : t.timeLeft.dec.leZero with
      | false =>
        obtain ⟨f1, -, -, -, -, -, f7, -⟩ := intervalBody_continue_fields s t ht hz
        intro u hu hrep
        rw [f1] at hu
        simp only [List.mem_singleton] at hu
        subst hu
        rw [f7]
        exact hg t (by rw [ht]; simp) hrep
      | true =>
        obtain ⟨e, he, e1, -, -, -, -, -, e7, -⟩ := intervalBody_expire_fields s t ht hc hz
        rw [he]
        cases hcb : t.callback with
        | exerciseViewDone =>
          have hs2 : TimerInv { e with
              imageDisplay := "none", instructions := rebuildInstructions } :=
            timerInv_of_nil _ e1
          obtain ⟨f1, -⟩ := startCountdown_fields e.rebuildTime
            Phase.rebuild Callback.exerciseRebuildDone _ hs2
          have hrun : runCallback Callback.exerciseViewDone e
              = startCountdown e.rebuildTime Phase.rebuild Callback.exerciseRebuildDone
                  { e with imageDisplay := "none", instructions := rebuildInstructions } := rfl
          rw [hrun]
          intro u hu hrep
          have hu2 : u ∈ [(⟨e.nextTimerId, e.rebuildTime, Callback.exerciseRebuildDone⟩ :
              Interval)] := f1 ▸ hu
          simp only [List.mem_singleton] at hu2
          subst hu2
          exact Bool.noConfusion (show false = true from hrep)
        | exerciseRebuildDone =>
          intro u hu
          rw [(runCallback_rebuild_fields Callback.exerciseRebuildDone e rfl).1, e1] at hu
          simp at hu
        | repeatViewDone =>
          have hrun : runCallback Callback.repeatViewDone e
              = startCountdown e.rebuildTime Phase.rebuild Callback.repeatRebuildDone
                  { e with imageDisplay := "none", instructions := rebuildInstructions } := rfl
          rw [hrun]
          intro u _ _
          rw [(startCountdown_frame _ _ _ _).2.2]
          show e.repeatBtnDisabled = true
          rw [e7]
          exact hg t (by rw [ht]; simp) (by rw [hcb]; rfl)
        | repeatRebuildDone =>
          intro u hu
          rw [(runCallback_rebuild_fields Callback.repeatRebuildDone e rfl).1, e1] at hu
          simp at hu

theorem run_repeat_live (evs : List Event) : ∀ s : State, TimerInv s →
    (∀ t ∈ s.timers, t.callback.isRepeat = true → s.repeatBtnDisabled = true) →
    TimerInv (run s evs) ∧
    ∀ t ∈ (run s evs).timers, t.callback.isRepeat = true →
      (run s evs).repeatBtnDisabled = true := by
  induction evs with
  | nil => intro s hs hg; exact ⟨hs, hg⟩
  | cons ev evs ih =>
    intro s hs hg
    have hids : IdsFrom 0 (step s ev) :=
      idsFrom_step 0 s ev ⟨hs, Nat.zero_le _, fun _ _ => Nat.zero_le _⟩
    exact ih (step s ev) hids.1 (step_repeat_live s ev hs hg)

/-- Under each of the four triggers: the repeat button goes from disabled to
enabled only in the step that begins the review. -/
theorem step_reenable (s : State) (ev : Event) (hs : TimerInv s)
    (hd : s.repeatBtnDisabled = true) (he : (step s ev).repeatBtnDisabled = false) :
    (step s ev).timers = [] ∧ (step s ev).currentPhase = none ∧
    (step s ev).instructions = reviewInstructions ∧ (step s ev).imageDisplay = "block" := by
  have hex : ∀ x : State, (startExercise x).repeatBtnDisabled = x.repeatBtnDisabled := by
    intro x
    exact (startCountdown_frame _ _ _ _).2.2
  have hcontra : ∀ x : State, x.repeatBtnDisabled = s.repeatBtnDisabled →
      x.repeatBtnDisabled = false → False := by
    intro x h1 h2
    rw [h1, hd] at h2
    exact Bool.noConfusion h2
  cases ev with
  | startClick =>
    have h1 : (step s Event.startClick).repeatBtnDisabled = s.repeatBtnDisabled :=
      hex { s with round := 0, startBtnText := "Start", nextBtnDisabled := false }
    exact (hcontra _ h1 he).elim
  | nextClick =>
    have he2 : (if s.nextBtnDisabled = true then s else startExercise s).repeatBtnDisabled
        = false := he
    split at he2
    · exact (hcontra s rfl he2).elim
    · exact (hcontra _ (hex s) he2).elim
  | repeatClick =>
    have he2 : (if s.repeatBtnDisabled = true then s
        else startInfiniteRepeat s).repeatBtnDisabled = false := he
    rw [if_pos hd] at he2
    exact (hcontra s rfl he2).elim
  | tick id =>
    have he2 : (fireInterval id s).repeatBtnDisabled = false := he
    show (fireInterval id s).timers = [] ∧ (fireInterval id s).currentPhase = none ∧
      (fireInterval id s).instructions = reviewInstructions ∧
      (fireInterval id s).imageDisplay = "block"
    rcases fireInterval_cases id s hs with h0 | ⟨t, ht, hc, -, heq⟩
    · rw [h0] at he2
      exact (hcontra s rfl he2).elim
    · rw [heq] at he2 ⊢
      cases hz : t.timeLeft.dec.leZero with
      | false =>
        obtain ⟨-, -, -, -, -, -, f7, -⟩ := intervalBody_continue_fields s t ht hz
        exact (hcontra _ f7 he2).elim
      | true =>
        obtain ⟨e, hbody, e1, -, -, -, -, -, e7, e8⟩ :=
          intervalBody_expire_fields s t ht hc hz
        rw [hbody] at he2 ⊢
        cases hcb : t.callback with
        | exerciseViewDone =>
          rw [hcb] at he2
          have h1 : (runCallback Callback.exerciseViewDone e).repeatBtnDisabled
              = e.repeatBtnDisabled := (startCountdown_frame _ _ _ _).2.2
          exact (hcontra _ (h1.trans e7) he2).elim
        | exerciseRebuildDone =>
          rw [hcb] at he2
          exact (hcontra _ ((runCallback_exerciseRebuildDone_repeatBtn e).trans e7) he2).elim
        | repeatViewDone =>
          rw [hcb] at he2
          have h1 : (runCallback Callback.repeatViewDone e).repeatBtnDisabled
              = e.repeatBtnDisabled := (startCountdown_frame _ _ _ _).2.2
          exact (hcontra _ (h1.trans e7) he2).elim
        | repeatRebuildDone =>
          have r1 : (runCallback Callback.repeatRebuildDone e).timers = e.timers := rfl
          have r5 : (runCallback Callback.repeatRebuildDone e).currentPhase
              = e.currentPhase := rfl
          exact ⟨r1.trans e1, r5.trans e8, rfl, rfl⟩

/-- C6 as amended: in every state reached from a page load by clicks on the
three buttons and firings of intervals, in any order, the repeat button is
disabled while a countdown of the repeat sequencer is live, and it goes from
disabled to enabled only in the step that begins the review (no countdown
live, `currentPhase` `null`, review instructions, image shown); the repeat
sequencer never changes `round` and disables the button at the start of a
cycle; as long as only clicks on the repeat button and firings of intervals
occur, from a state with no countdown and the button enabled, the button is
enabled exactly when no countdown is running, equivalently when `currentPhase`
is `null`; and in a repeat cycle with durations `0 < d1, d2 ≤ 2^53` the button
is disabled for the first `d1 + d2` ticks and enabled from the review on. -/
theorem repeat_guard (document : State) (storage : Storage) (evs : List Event) :
    (∀ t ∈ (run (pageLoad document storage) evs).timers, t.callback.isRepeat = true →
      (run (pageLoad document storage) evs).repeatBtnDisabled = true) ∧
    (∀ ev : Event, (run (pageLoad document storage) evs).repeatBtnDisabled = true →
      (step (run (pageLoad document storage) evs) ev).repeatBtnDisabled = false →
      (step (run (pageLoad document storage) evs) ev).timers = [] ∧
      (step (run (pageLoad document storage) evs) ev).currentPhase = none ∧
      (step (run (pageLoad document storage) evs) ev).instructions = reviewInstructions ∧
      (step (run (pageLoad document storage) evs) ev).imageDisplay = "block") ∧
    (∀ x : State,
      (startInfiniteRepeat x).round = x.round ∧
      (runCallback Callback.repeatViewDone x).round = x.round ∧
      (runCallback Callback.repeatRebuildDone x).round = x.round ∧
      (startInfiniteRepeat x).repeatBtnDisabled = true) ∧
    (∀ (x : State) (later : List Event), x.timers = [] → x.repeatBtnDisabled = false →
      x.currentPhase = none →
      (∀ ev ∈ later, ev = Event.repeatClick ∨ ∃ id, ev = Event.tick id) →
      (run x later).round = x.round ∧
      ((run x later).repeatBtnDisabled = false ↔ (run x later).timers = []) ∧
      ((run x later).repeatBtnDisabled = false ↔ (run x later).currentPhase = none)) ∧
    ∀ (x : State) (d1 d2 : Nat), 0 < d1 → 0 < d2 → d1 ≤ exactBound → d2 ≤ exactBound →
      TimerInv x → x.viewTime = JSNum.int d1 → x.rebuildTime = JSNum.int d2 →
      (∀ k, k < d1 + d2 → (ticks k (startInfiniteRepeat x)).repeatBtnDisabled = true) ∧
      (∀ n, d1 + d2 ≤ n →
        (ticks n (startInfiniteRepeat x)).repeatBtnDisabled = false ∧
        (ticks n (startInfiniteRepeat x)).instructions = reviewInstructions ∧
        (ticks n (startInfiniteRepeat x)).round = x.round) := by
  have h0 : (pageLoad document storage).timers = [] := pageLoad_timers document storage
  obtain ⟨hinv, hlive⟩ := run_repeat_live evs (pageLoad document storage)
    (timerInv_of_nil _ h0) (by rw [h0]; intro t ht; simp at ht)
  refine ⟨hlive, ?_, ?_, ?_, ?_⟩
  · intro ev hd he
    exact step_reenable _ ev hinv hd he
  · intro x
    refine ⟨(startCountdown_frame _ _ _ _).1, (startCountdown_frame _ _ _ _).1, rfl,
      (startCountdown_frame _ _ _ _).2.2⟩
  · intro x later x0 x1 x2 hevs
    obtain ⟨r1, r2⟩ := run_keeps_guard later x (timerInv_of_nil x x0)
      (by rw [x0]; intro t ht; simp at ht) (Or.inl ⟨x0, x1, x2⟩) hevs
    refine ⟨r1, ?_, ?_⟩
    · rcases r2 with ⟨g1, g2, -⟩ | ⟨g1, g2, -⟩
      · simp [g1, g2]
      · simp [g1, g2]
    · rcases r2 with ⟨-, g2, g3⟩ | ⟨-, g2, g3⟩
      · simp [g2, g3]
      · simp [g2, g3]
  · intro x d1 d2 p1 p2 q1 q2 hx hv hr
    obtain ⟨c1, c2, c3⟩ := repeat_cycle x d1 d2 p1 p2 q1 q2 hx hv hr
    refine ⟨?_, ?_⟩
    · intro k hk
      by_cases hlt : k < d1
      · rw [c1 k hlt]; rfl
      · obtain ⟨j, rfl⟩ : ∃ j, k = d1 + j := ⟨k - d1, by omega⟩
        rw [c2 j (by omega)]; rfl
    · intro n hn
      rw [c3 n hn]
      exact ⟨rfl, rfl, rfl⟩

/-- C6 as amended, on the page with durations of one second: after a click on
the repeat button and a click on the start button no repeat countdown is live;
and the repeat cycle keeps the button disabled for its two ticks. -/
theorem repeat_guard_witness :
    (∀ t ∈ (run quickPage [Event.repeatClick, Event.startClick]).timers,
      t.callback.isRepeat = true →
      (run quickPage [Event.repeatClick, Event.startClick]).repeatBtnDisabled = true) ∧
    ((run quickPage [Event.repeatClick, Event.tick 1, Event.repeatClick]).repeatBtnDisabled
        = false ↔
      (run quickPage [Event.repeatClick, Event.tick 1, Event.repeatClick]).timers = []) ∧
    (ticks 1 (startInfiniteRepeat quickPage)).repeatBtnDisabled = true ∧
    (ticks 2 (startInfiniteRepeat quickPage)).repeatBtnDisabled = false :=
  have h := repeat_guard blankDocument ⟨none, some "1", some "1"⟩
    [Event.repeatClick, Event.startClick]
  have hb := h.2.2.2.1 quickPage [Event.repeatClick, Event.tick 1, Event.repeatClick]
    rfl rfl rfl
    (by
      intro ev hev
      simp only [List.mem_cons, List.mem_singleton, List.not_mem_nil, or_false] at hev
      rcases hev with rfl | rfl | rfl
      · exact Or.inl rfl
      · exact Or.inr ⟨1, rfl⟩
      · exact Or.inl rfl)
  have hc := h.2.2.2.2 quickPage 1 1 (by decide) (by decide) (by decide) (by decide)
    (timerInv_of_nil quickPage rfl) rfl rfl
  ⟨h.1, hb.2.1, hc.1 1 (by decide), (hc.2 2 (by decide)).1⟩

end VisualEncoding
